import Mathlib

/-!
# nanocurrency/rpc-go: session layer, call chain and session pool

A shallow embedding of `pkg/nanoipc/util.go`, `pkg/nanoipc/session.go` and
`cmd/rpc-go/main.go`.

* Go values of type `int` are `Int`; the `int32` round-robin counter is an
  `Int` reduced with `wrapInt32` after every arithmetic step.
* A Go `string` used as a payload is the list of its bytes; messages and
  categories of errors are Lean strings.
* A `nil` pointer or slice is `none`.
* `net.Conn`, `net.Dialer`, `net/url.Parse` and `encoding/json.Marshal` are
  not code of this repository.  A connection is a record holding the script
  of what the peer and the network will do, together with the log of the
  calls made on it; the dialer is a script indexed by the number of the dial
  attempt; the parser and the marshaller are parameters (`Env`).
* A run-time panic is part of the result (`Outcome`), and the state reached
  when the panic is raised is kept.
* Mutexes, the atomic increment and log output are not modelled: every
  operation is a sequential state transformer.
-/

namespace NanoIPC

/-- One octet. -/
abbrev Byte := Fin 256

/-! ## util.go -/

/-- Go: `type Error struct { Code int; Message string; Category string }` -/
structure Error where
  Code : Int
  Message : String
  Category : String
deriving DecidableEq

/-- Go: `type CallChain struct { Err *Error }` -/
structure CallChain where
  Err : Option Error
deriving DecidableEq

/-- A Go statement over the variables `ρ` captured by a callback together with
the call chain it belongs to: the state it leaves, and the panic message when
it does not return normally. -/
abbrev Exec (ρ : Type) := CallChain × ρ → (CallChain × ρ) × Option String

/-- A callback that always returns normally. -/
def Exec.lift {ρ : Type} (f : CallChain × ρ → CallChain × ρ) : Exec ρ :=
  fun st => (f st, none)

/-- Sequencing of two statements: a panic in the first skips the second. -/
def Exec.andThen {ρ : Type} (a b : Exec ρ) : Exec ρ :=
  fun st =>
    match a st with
    | (st1, none) => b st1
    | (st1, some msg) => (st1, some msg)

/-- Go: `func (sc *CallChain) Do(fn func()) *CallChain`:
`if sc.Err == nil { fn() }; return sc`. -/
def CallChain.Do {ρ : Type} (fn : Exec ρ) : Exec ρ :=
  fun st => if st.1.Err = none then fn st else (st, none)

/-- Go: `func (sc *CallChain) Failure(fn func()) *CallChain`:
`if sc.Err != nil { fn() }; return sc`. -/
def CallChain.Failure {ρ : Type} (fn : Exec ρ) : Exec ρ :=
  fun st => if st.1.Err ≠ none then fn st else (st, none)

/-- The expression `sc.Do(f₁).Do(f₂)….Do(fₙ).Failure(g)`. -/
def CallChain.run {ρ : Type} (dos : List (Exec ρ)) (failure : Exec ρ) : Exec ρ :=
  dos.foldr (fun fn rest => Exec.andThen (CallChain.Do fn) rest) (CallChain.Failure failure)

/-! ## The transport (`net.Conn`) -/

/-- A call made on a connection. -/
inductive ConnEvent where
  | setWriteDeadline (seconds : Int)
  | setReadDeadline (seconds : Int)
  | write (data : List Byte) (accepted : Nat)
  | read (want : Nat) (got : List Byte)
  | close
deriving DecidableEq

/-- A stream connection.  `writeFaults` scripts the upcoming `Write` calls, one
entry per call: `none` accepts the whole buffer, `some (n, msg)` accepts at most
`n` bytes and reports `msg`; once the script is used up every write is accepted.
`incoming` is what the peer will still deliver and `readErr` the error the
stream ends with (end of file, deadline exceeded, reset).  `closeErr` is what
`Close` reports.  `events` logs the calls made so far, oldest first. -/
structure Conn where
  writeFaults : List (Option (Nat × String))
  incoming : List Byte
  readErr : String
  closeErr : Option String
  events : List ConnEvent
deriving DecidableEq

/-- Go: `SetWriteDeadline(time.Now().Add(seconds * time.Second))`; the returned
error is ignored by the callers. -/
def Conn.SetWriteDeadline (c : Conn) (seconds : Int) : Conn :=
  { c with events := c.events ++ [ConnEvent.setWriteDeadline seconds] }

/-- Go: `SetReadDeadline(time.Now().Add(seconds * time.Second))`. -/
def Conn.SetReadDeadline (c : Conn) (seconds : Int) : Conn :=
  { c with events := c.events ++ [ConnEvent.setReadDeadline seconds] }

/-- Go: `Write(data)`: the connection after the call and the error, if any. -/
def Conn.Write (c : Conn) (data : List Byte) : Conn × Option String :=
  match c.writeFaults with
  | [] =>
    ({ c with events := c.events ++ [ConnEvent.write data data.length] }, none)
  | none :: rest =>
    ({ c with writeFaults := rest,
              events := c.events ++ [ConnEvent.write data data.length] }, none)
  | some (n, msg) :: rest =>
    ({ c with writeFaults := rest,
              events := c.events ++ [ConnEvent.write data (min n data.length)] }, some msg)

/-- Go: `io.ReadFull(c, buf)`: the connection, the buffer and the error after the
call.  An empty buffer makes no read at all; a short stream leaves the bytes
that did arrive at the front of the buffer and reports the error the stream
ends with (`io.ReadFull` turns an end of file after some bytes into
"unexpected EOF"). -/
def Conn.ReadFull (c : Conn) (buf : List Byte) : Conn × List Byte × Option String :=
  if buf.length = 0 then (c, buf, none)
  else if buf.length ≤ c.incoming.length then
    ({ c with incoming := c.incoming.drop buf.length,
              events := c.events ++ [ConnEvent.read buf.length (c.incoming.take buf.length)] },
     c.incoming.take buf.length, none)
  else
    ({ c with incoming := [],
              events := c.events ++ [ConnEvent.read buf.length c.incoming] },
     c.incoming ++ buf.drop c.incoming.length,
     some (if c.incoming.length ≠ 0 ∧ c.readErr = "EOF" then "unexpected EOF" else c.readErr))

/-- Go: `Close()`. -/
def Conn.Close (c : Conn) : Conn × Option String :=
  ({ c with events := c.events ++ [ConnEvent.close] }, c.closeErr)

/-- The bytes a log of calls put on the wire, in write order. -/
def wireBytes : List ConnEvent → List Byte
  | [] => []
  | ConnEvent.write data accepted :: rest => data.take accepted ++ wireBytes rest
  | _ :: rest => wireBytes rest

/-- The bytes written to a connection so far. -/
def Conn.sent (c : Conn) : List Byte := wireBytes c.events

/-! ## encoding/binary -/

/-- Go: `uint32(n)` for a length `n`. -/
def toUint32 (n : Nat) : Nat := n % 2 ^ 32

/-- Go: `binary.BigEndian.PutUint32(b[:], v)` on a four byte array. -/
def PutUint32 (v : Nat) : List Byte :=
  [Fin.ofNat (v / 2 ^ 24), Fin.ofNat (v / 2 ^ 16), Fin.ofNat (v / 2 ^ 8), Fin.ofNat v]

/-- Go: `binary.BigEndian.Uint32(b[:])` on a four byte array. -/
def Uint32 : List Byte → Nat
  | [b0, b1, b2, b3] => b0.val * 2 ^ 24 + b1.val * 2 ^ 16 + b2.val * 2 ^ 8 + b3.val
  | _ => 0

/-! ## session.go -/

/-- Go: `type Session struct`: the transport handle (`nil` until a dial succeeds),
the `Connected` flag and the two timeouts in seconds. -/
structure Session where
  connection : Option Conn
  Connected : Bool
  TimeoutReadWrite : Int
  TimeoutConnection : Int
deriving DecidableEq

/-- Go: `&nanoipc.Session{}`. -/
def Session.zero : Session :=
  { connection := none, Connected := false, TimeoutReadWrite := 0, TimeoutConnection := 0 }

/-- What a Go function hands back: its results, or a panic. -/
inductive Outcome (α : Type) where
  | ret (a : α) : Outcome α
  | panic (msg : String) : Outcome α
deriving DecidableEq

/-- The message of a call through a nil interface or pointer. -/
def nilDeref : String := "invalid memory address or nil pointer dereference"

/-- Go: `func (s *Session) Close() *Error`. -/
def Session.Close (s : Session) : Session × Outcome (Option Error) :=
  if s.Connected then
    let s1 := { s with Connected := false }
    match s1.connection with
    | none => (s1, Outcome.panic nilDeref)
    | some c =>
      let (c1, closeErr) := c.Close
      let s2 := { s1 with connection := some c1 }
      match closeErr with
      | some msg => (s2, Outcome.ret (some ⟨1, msg, "Connection"⟩))
      | none => (s2, Outcome.ret none)
  else (s, Outcome.ret none)

/-- The variables of `Session.Request` that its callbacks capture. -/
structure RequestVars where
  conn : Conn
  timeoutReadWrite : Int
  request : List Byte
  preamble : List Byte
  bufLen : List Byte
  err : Option String
  bufResponse : Option (List Byte)
  errReply : Option Error
deriving DecidableEq

/-- Go: `const PROTOCOL_PREAMBLE_LEAD = 'N'` -/
def PROTOCOL_PREAMBLE_LEAD : Byte := 78
/-- Go: `const PROTOCOL_ENCODING = 1` -/
def PROTOCOL_ENCODING : Byte := 1
/-- Go: `const PROTOCOL_RESERVED = 0` -/
def PROTOCOL_RESERVED : Byte := 0

/-- Go: `if _, err = s.connection.Write(data); err != nil { sc.Err = &Error{1, err.Error(), "Network"} }`
after `s.updateWriteDeadline()`. -/
def Request.writeStep (data : List Byte) (st : CallChain × RequestVars) : CallChain × RequestVars :=
  let c1 := st.2.conn.SetWriteDeadline st.2.timeoutReadWrite
  let (c2, err) := c1.Write data
  match err with
  | some msg => ({ Err := some ⟨1, msg, "Network"⟩ }, { st.2 with conn := c2, err := some msg })
  | none => (st.1, { st.2 with conn := c2, err := none })

/-- First callback: build and write the preamble. -/
def Request.step1 (st : CallChain × RequestVars) : CallChain × RequestVars :=
  let preamble := [PROTOCOL_PREAMBLE_LEAD, PROTOCOL_ENCODING, PROTOCOL_RESERVED, PROTOCOL_RESERVED]
  Request.writeStep preamble (st.1, { st.2 with preamble := preamble })

/-- Second callback: encode and write the length. -/
def Request.step2 (st : CallChain × RequestVars) : CallChain × RequestVars :=
  let bufLen := PutUint32 (toUint32 st.2.request.length)
  Request.writeStep bufLen (st.1, { st.2 with bufLen := bufLen })

/-- Third callback: write the payload. -/
def Request.step3 (st : CallChain × RequestVars) : CallChain × RequestVars :=
  Request.writeStep st.2.request st

/-- Fourth callback: read the response length into `bufLen`. -/
def Request.step4 (st : CallChain × RequestVars) : CallChain × RequestVars :=
  let c1 := st.2.conn.SetReadDeadline st.2.timeoutReadWrite
  let (c2, buf, err) := c1.ReadFull st.2.bufLen
  match err with
  | some msg =>
    ({ Err := some ⟨1, msg, "Network"⟩ }, { st.2 with conn := c2, bufLen := buf, err := some msg })
  | none => (st.1, { st.2 with conn := c2, bufLen := buf, err := none })

/-- Fifth callback: allocate `bufResponse` with the announced length and read
the payload into it. -/
def Request.step5 (st : CallChain × RequestVars) : CallChain × RequestVars :=
  let bufResponse : List Byte := List.replicate (Uint32 st.2.bufLen) 0
  let c1 := st.2.conn.SetReadDeadline st.2.timeoutReadWrite
  let (c2, buf, err) := c1.ReadFull bufResponse
  match err with
  | some msg =>
    ({ Err := some ⟨1, msg, "Network"⟩ },
     { st.2 with conn := c2, bufResponse := some buf, err := some msg })
  | none => (st.1, { st.2 with conn := c2, bufResponse := some buf, err := none })

/-- The failure callback: `errReply = sc.Err` (and a log line). -/
def Request.onFailure (st : CallChain × RequestVars) : CallChain × RequestVars :=
  (st.1, { st.2 with errReply := st.1.Err })

/-- Go: `func (s *Session) Request(request string) ([]byte, *Error)`: the session
after the call and the pair returned. -/
def Session.Request (s : Session) (request : List Byte) :
    Session × Outcome (Option (List Byte) × Option Error) :=
  if !s.Connected then
    (s, Outcome.ret (none, some ⟨1, "Not connected", "Network"⟩))
  else
    match s.connection with
    | none => (s, Outcome.panic nilDeref)
    | some c =>
      let vars : RequestVars :=
        { conn := c, timeoutReadWrite := s.TimeoutReadWrite, request := request,
          preamble := [0, 0, 0, 0], bufLen := [0, 0, 0, 0], err := none,
          bufResponse := none, errReply := none }
      let fin := CallChain.run
        [Exec.lift Request.step1, Exec.lift Request.step2, Exec.lift Request.step3,
         Exec.lift Request.step4, Exec.lift Request.step5]
        (Exec.lift Request.onFailure) ({ Err := none }, vars)
      ({ s with connection := some fin.1.2.conn },
       Outcome.ret (fin.1.2.bufResponse, fin.1.2.errReply))

/-- The result of `net/url.Parse` as far as `Connect` looks at it. -/
structure URL where
  Scheme : String
  Host : String
  Path : String
deriving DecidableEq

/-- Library functions the program calls: `net/url.Parse` and
`encoding/json.Marshal` on an `*Error`. -/
structure Env where
  parse : String → Except String URL
  marshal : Error → Except String (List Byte)

/-- A `net.Dialer` together with the network behind it: `script k network
address timeout` is the outcome of dial attempt number `k` (counted from 0),
`calls` the number of attempts made so far. -/
structure Dialer where
  script : Nat → String → String → Int → Except String Conn
  calls : Nat

/-- Go: `(&net.Dialer{KeepAlive: …, Timeout: timeout}).DialContext(ctx, network, address)`. -/
def Dialer.DialContext (d : Dialer) (timeout : Int) (network address : String) :
    Dialer × Except String Conn :=
  ({ d with calls := d.calls + 1 }, d.script d.calls network address timeout)

/-- Go: `func (s *Session) Connect(connectionString string) *Error`. -/
def Session.Connect (env : Env) (d : Dialer) (s : Session) (connectionString : String) :
    Dialer × Session × Option Error :=
  match env.parse connectionString with
  | Except.error _ => (d, s, some ⟨1, "Invalid connection string", "Connection"⟩)
  | Except.ok uri =>
    let (scheme, host, connError) : String × String × Option Error :=
      if uri.Scheme = "local" then ("unix", uri.Path, none)
      else if uri.Scheme ≠ "tcp" then
        (uri.Scheme, uri.Host, some ⟨1, "Invalid schema: Use tcp or local.", "Connection"⟩)
      else (uri.Scheme, uri.Host, none)
    let s1 := if s.TimeoutConnection = 0 then { s with TimeoutConnection := 15 } else s
    let s2 := if s1.TimeoutReadWrite = 0 then { s1 with TimeoutReadWrite := 30 } else s1
    match d.DialContext s2.TimeoutConnection scheme host with
    | (d1, Except.error msg) =>
      (d1, { s2 with Connected := false }, some ⟨1, msg, "Connection"⟩)
    | (d1, Except.ok con) =>
      (d1, { s2 with connection := some con, Connected := true }, connError)

/-! ## main.go -/

/-- Everything outside the `RestServer` value: the sessions it points to
(`mem`, addressed by natural numbers, `brk` being the next free address) and
the dialer. -/
structure World where
  mem : Nat → Session
  brk : Nat
  dialer : Dialer

/-- Store a session at an address. -/
def World.store (w : World) (p : Nat) (s : Session) : World :=
  { w with mem := fun q => if q = p then s else w.mem q }

/-- Go: `session := &nanoipc.Session{}`. -/
def World.new (w : World) : World × Nat :=
  ({ (w.store w.brk Session.zero) with brk := w.brk + 1 }, w.brk)

/-- Go: `session.Connect(connectionString)` through a pointer. -/
def World.Connect (env : Env) (w : World) (p : Nat) (connectionString : String) :
    World × Option Error :=
  match Session.Connect env w.dialer (w.mem p) connectionString with
  | (d1, s1, err) => ({ (w.store p s1) with dialer := d1 }, err)

/-- Go: `element.Close()` through a pointer. -/
def World.Close (w : World) (p : Nat) : World × Outcome (Option Error) :=
  match Session.Close (w.mem p) with
  | (s1, r) => (w.store p s1, r)

/-- Go: `session.Request(request)` through a pointer. -/
def World.Request (w : World) (p : Nat) (request : List Byte) :
    World × Outcome (Option (List Byte) × Option Error) :=
  match Session.Request (w.mem p) request with
  | (s1, r) => (w.store p s1, r)

/-- Go: `type _ConfNode struct` -/
structure ConfNode where
  Connection : String
  Poolsize : Int
deriving DecidableEq

/-- Go: `type _Conf struct` -/
structure Conf where
  Port : Int
  Hostname : String
  Node : ConfNode
deriving DecidableEq

/-- Go: `type RestServer struct`; `sessions` holds the addresses of the sessions. -/
structure RestServer where
  sessions : List Nat
  nextsession : Int
  conf : Conf
  needReconnect : Bool
deriving DecidableEq

/-- The loop of `tryConnectNode`,
`for i := 0; err == nil && i < Poolsize; i++ { … }`, entered with `err == nil`
and `n` iterations left before `i` reaches `Poolsize`. -/
def tryConnectNode.loop (env : Env) (connection : String) :
    Nat → World → List Nat → World × List Nat × Option Error
  | 0, w, sessions => (w, sessions, none)
  | n + 1, w, sessions =>
    match w.new with
    | (w1, session) =>
      match w1.Connect env session connection with
      | (w2, some e) => (w2, sessions ++ [session], some e)
      | (w2, none) => tryConnectNode.loop env connection n w2 (sessions ++ [session])

/-- Go: `func (server *RestServer) tryConnectNode() *nanoipc.Error`. -/
def tryConnectNode (env : Env) (srv : RestServer) (w : World) :
    (RestServer × World) × Option Error :=
  match tryConnectNode.loop env srv.conf.Node.Connection srv.conf.Node.Poolsize.toNat w [] with
  | (w1, sessions, err) =>
    (({ srv with sessions := sessions,
                 needReconnect := decide ((sessions.length : Int) < srv.conf.Node.Poolsize) },
      w1), err)

/-- Go: `for _, element := range server.sessions { element.Close() }`: the world
after the loop and the panic that interrupted it, if any. -/
def closeAll : List Nat → World → World × Option String
  | [], w => (w, none)
  | p :: rest, w =>
    match w.Close p with
    | (w1, Outcome.panic msg) => (w1, some msg)
    | (w1, Outcome.ret _) => closeAll rest w1

/-- Go: `func (server *RestServer) reconnectNode() *nanoipc.Error`. -/
def reconnectNode (env : Env) (srv : RestServer) (w : World) :
    (RestServer × World) × Outcome (Option Error) :=
  match closeAll srv.sessions w with
  | (w1, some msg) => ((srv, w1), Outcome.panic msg)
  | (w1, none) =>
    match tryConnectNode env { srv with sessions := [], nextsession := 0 } w1 with
    | (st, err) => (st, Outcome.ret err)

/-- Conversion to `int32`, and the result of `int32` arithmetic: reduction
into `[-2^31, 2^31)`. -/
def wrapInt32 (x : Int) : Int := (x + 2147483648) % 4294967296 - 2147483648

/-- The first two statements of `getSession`:
`next := atomic.AddInt32(&server.nextsession, 1)` and
`next = next % int32(server.conf.Node.Poolsize)`.  Go's `%` truncates towards
zero and panics on a zero divisor. -/
def getSession.index (srv : RestServer) : RestServer × Outcome Int :=
  let next := wrapInt32 (srv.nextsession + 1)
  let srv1 := { srv with nextsession := next }
  let size := wrapInt32 srv.conf.Node.Poolsize
  if size = 0 then (srv1, Outcome.panic "integer divide by zero")
  else (srv1, Outcome.ret (Int.tmod next size))

/-- Go: `func (server *RestServer) getSession() *nanoipc.Session`: the index
computed above, then `return server.sessions[next]`. -/
def getSession (srv : RestServer) : RestServer × Outcome Nat :=
  match getSession.index srv with
  | (srv1, Outcome.panic msg) => (srv1, Outcome.panic msg)
  | (srv1, Outcome.ret next) =>
    if 0 ≤ next then
      match srv1.sessions[next.toNat]? with
      | some p => (srv1, Outcome.ret p)
      | none => (srv1, Outcome.panic "index out of range")
    else (srv1, Outcome.panic "index out of range")

/-- The part of an `*http.Request` the handler looks at: the method and what
`ioutil.ReadAll(req.Body)` gives. -/
structure HttpRequest where
  Method : String
  Body : Except String (List Byte)

/-- The variables the callbacks of `handler` capture: the server and what it
points to, the bytes written to the `http.ResponseWriter` so far, the request,
and the two locals. -/
structure HandlerVars where
  server : RestServer
  world : World
  resp : List Byte
  req : HttpRequest
  responseBytes : Option (List Byte)
  bodyString : List Byte

/-- Go: `resp.Write(b)`. -/
def HandlerVars.Write (v : HandlerVars) (b : Option (List Byte)) : HandlerVars :=
  { v with resp := v.resp ++ b.getD [] }

/-- First callback of `handler`: read the body. -/
def handler.readBody : Exec HandlerVars :=
  fun st =>
    match st.2.req.Body with
    | Except.error msg => (({ Err := some ⟨1, msg, "REST"⟩ }, st.2), none)
    | Except.ok bodyBytes => ((st.1, { st.2 with bodyString := bodyBytes }), none)

/-- Second callback of `handler`: `server.getSession().Request(bodyString)`. -/
def handler.request : Exec HandlerVars :=
  fun st =>
    match getSession st.2.server with
    | (srv1, Outcome.panic msg) => ((st.1, { st.2 with server := srv1 }), some msg)
    | (srv1, Outcome.ret p) =>
      match st.2.world.Request p st.2.bodyString with
      | (w1, Outcome.panic msg) => ((st.1, { st.2 with server := srv1, world := w1 }), some msg)
      | (w1, Outcome.ret (_, some err)) =>
        (({ Err := some err }, { st.2 with server := srv1, world := w1 }), none)
      | (w1, Outcome.ret (rb, none)) =>
        ((st.1, { st.2 with server := srv1, world := w1, responseBytes := rb }), none)

/-- Third callback of `handler`: `resp.Write(responseBytes)`. -/
def handler.respond : Exec HandlerVars :=
  fun st => ((st.1, st.2.Write st.2.responseBytes), none)

/-- The failure callback of `handler`: reconnect when the error is a network
error. -/
def handler.onFailure (env : Env) : Exec HandlerVars :=
  fun st =>
    match st.1.Err with
    | none => (st, some nilDeref)
    | some e =>
      if e.Category = "Network" then
        match reconnectNode env st.2.server st.2.world with
        | ((srv1, w1), Outcome.panic msg) =>
          ((st.1, { st.2 with server := srv1, world := w1 }), some msg)
        | ((srv1, w1), Outcome.ret _) =>
          ((st.1, { st.2 with server := srv1, world := w1 }), none)
      else (st, none)

/-- The bytes of a string literal. -/
def bytesOf (s : String) : List Byte := s.toUTF8.toList.map (fun b => b.val)

/-- Go: `func (server *RestServer) handler(resp http.ResponseWriter, req *http.Request)`:
the server, the world and the response body after the call, and the panic
message when the handler does not return normally. -/
def handler (env : Env) (srv : RestServer) (w : World) (req : HttpRequest) :
    (RestServer × World × List Byte) × Option String :=
  if req.Method = "POST" then
    let chain (srv0 : RestServer) (w0 : World) : (RestServer × World × List Byte) × Option String :=
      let vars : HandlerVars :=
        { server := srv0, world := w0, resp := [], req := req,
          responseBytes := none, bodyString := [] }
      match CallChain.run [handler.readBody, handler.request, handler.respond]
          (handler.onFailure env) ({ Err := none }, vars) with
      | ((_, v), p) => ((v.server, v.world, v.resp), p)
    if srv.needReconnect then
      match tryConnectNode env srv w with
      | ((srv1, w1), some err) =>
        match env.marshal err with
        | Except.ok json => ((srv1, w1, json), none)
        | Except.error _ => ((srv1, w1, []), none)
      | ((srv1, w1), none) => chain srv1 w1
    else chain srv w
  else ((srv, w, bytesOf "Invalid request method. Use POST."), none)

/-! ## Instrumentation used to state what a call chain runs -/

/-- Callback number `i` with body `f`: it runs `f` and notes its own number
at the end of the list of callbacks that have run. -/
def logged {ρ : Type} (i : Nat) (f : CallChain × ρ → CallChain × ρ) : Exec (ρ × List Nat) :=
  fun st => (((f (st.1, st.2.1)).1, ((f (st.1, st.2.1)).2, st.2.2 ++ [i])), none)

/-- The callbacks `fs` numbered `k`, `k + 1`, … -/
def loggedFrom {ρ : Type} : Nat → List (CallChain × ρ → CallChain × ρ) → List (Exec (ρ × List Nat))
  | _, [] => []
  | k, f :: fs => logged k f :: loggedFrom (k + 1) fs

/-- The state after running the given callbacks one after the other. -/
def applyAll {σ : Type} (fs : List (σ → σ)) (s : σ) : σ := fs.foldl (fun acc f => f acc) s

/-! ## Concrete transports and sessions used in the evaluations -/

/-- A connection on which every write is accepted, whose peer delivers
`incoming` and then closes the stream. -/
def peerSends (incoming : List Byte) : Conn :=
  { writeFaults := [], incoming := incoming, readErr := "EOF", closeErr := none, events := [] }

/-- A connected session over the given connection, with the default timeouts. -/
def liveSession (c : Conn) : Session :=
  { connection := some c, Connected := true, TimeoutReadWrite := 30, TimeoutConnection := 15 }

/-- What `net/url.Parse` answers on the two addresses of the scenarios: the
address "ftp://bad" has scheme "ftp" and host "bad", the address
"local:///tmp/nano" has scheme "local", no host and path "/tmp/nano".  Every
other address is taken as malformed here.  `json.Marshal` of an `*Error` writes
the three exported fields. -/
def scenarioEnv : Env :=
  { parse := fun address =>
      if address = "ftp://bad" then Except.ok ⟨"ftp", "bad", ""⟩
      else if address = "local:///tmp/nano" then Except.ok ⟨"local", "", "/tmp/nano"⟩
      else Except.error "parse error",
    marshal := fun e =>
      Except.ok (bytesOf ("\x7b\"Code\":" ++ toString e.Code ++ ",\"Message\":\"" ++ e.Message
        ++ "\",\"Category\":\"" ++ e.Category ++ "\"\x7d")) }

/-- A dialer none of whose attempts succeeds: networks other than "tcp" and
"unix" are unknown to it, and nothing listens behind those two. -/
def deadDialer : Dialer :=
  { script := fun _ network _ _ =>
      if network = "tcp" ∨ network = "unix" then Except.error "connect: connection refused"
      else Except.error ("dial " ++ network ++ ": unknown network " ++ network),
    calls := 0 }

/-- A dialer whose first `k` attempts succeed, each with a fresh connection to
a silent peer, and whose later attempts are refused. -/
def flakyDialer (k : Nat) : Dialer :=
  { script := fun i _ _ _ =>
      if i < k then Except.ok (peerSends []) else Except.error "connect: connection refused",
    calls := 0 }

/-- A world in which nothing has been allocated yet. -/
def emptyWorld (d : Dialer) : World :=
  { mem := fun _ => Session.zero, brk := 0, dialer := d }

/-- A server value as `main` and `listen` set it up before the first
`tryConnectNode`, for the given node address and pool size. -/
def freshServer (connection : String) (poolsize : Int) : RestServer :=
  { sessions := [], nextsession := 0,
    conf := { Port := 8080, Hostname := "", Node := { Connection := connection, Poolsize := poolsize } },
    needReconnect := false }

/-- Number of sessions of the pool with `Connected == true`. -/
def connectedCount (srv : RestServer) (w : World) : Nat :=
  (srv.sessions.filter (fun p => (w.mem p).Connected)).length

/-! ## Predicates, traces and further concrete states used in the statements -/

/-- A session whose transport reports an error when it is closed. -/
def closeFailing : Session :=
  liveSession { peerSends [] with closeErr := some "use of closed network connection" }

/-- A transport that accepts every write. -/
def Conn.accepting (c : Conn) : Prop := ∀ f ∈ c.writeFaults, f = none

/-- A pool of three connected sessions at addresses 0, 1 and 2, the counter
being `counter`. -/
def poolOfThree (counter : Int) : RestServer × World :=
  ({ (freshServer "local:///tmp/nano" 3) with sessions := [0, 1, 2], nextsession := counter },
   { mem := fun _ => liveSession (peerSends []), brk := 3, dialer := flakyDialer 3 })

/-- The pool left by `tryConnectNode` for pool size 3 when the first dial
succeeds and the second fails. -/
def shortFill : RestServer :=
  (tryConnectNode scenarioEnv (freshServer "local:///tmp/nano" 3) (emptyWorld (flakyDialer 1))).1.1

/-- The server and the world after `tryConnectNode` for pool size 1 and the
address "ftp://bad", on which the dial fails. -/
def failedFill : RestServer × World :=
  (tryConnectNode scenarioEnv (freshServer "ftp://bad" 1) (emptyWorld deadDialer)).1

/-- The session invariant: a connected session has a transport. -/
def Session.ok (s : Session) : Prop := s.Connected = true → s.connection ≠ none

/-- A pool of two sessions, the first connected over a transport whose close
fails, the second never connected. -/
def mixedPool : RestServer × World :=
  ({ (freshServer "local:///tmp/nano" 2) with sessions := [0, 1] },
   { mem := fun q => if q = 0 then closeFailing else Session.zero, brk := 2,
     dialer := flakyDialer 2 })

/-- The indices computed by `n` consecutive calls of `getSession`, in the order
of the calls. -/
def indexTrace : Nat → RestServer → List (Outcome Int)
  | 0, _ => []
  | n + 1, srv => (getSession.index srv).2 :: indexTrace n (getSession srv).1

/-- How often `j` occurs among the residues modulo `k` of the `n` consecutive
numbers from `a` on. -/
def residueCount (k j a n : Nat) : Nat :=
  ((List.range n).map (fun t => (a + t) % k)).count j

/-! ## Close -/

/-- C9: for every session, `Connected` is false after `Close` whatever it
returns; a close error of the transport is reported with category
"Connection"; and a second `Close` returns no error and leaves the session,
its transport included, exactly as the first one left it. -/
theorem Session.Close_idempotent (s : Session) :
    (s.Close).1.Connected = false ∧
    (∀ c msg, s.Connected = true → s.connection = some c → c.closeErr = some msg →
      (s.Close).2 = Outcome.ret (some ⟨1, msg, "Connection"⟩)) ∧
    (∀ e, (s.Close).2 = Outcome.ret (some e) → e.Category = "Connection") ∧
    (s.Close).1.Close = ((s.Close).1, Outcome.ret none) := by
  unfold Session.Close
  cases hC : s.Connected with
  | false => simp [hC]
  | true =>
    cases hc : s.connection with
    | none => simp [Session.Close]
    | some c =>
      cases hce : c.closeErr with
      | none =>
        simp only [Conn.Close, hce]
        refine ⟨by simp, ?_, by simp, by simp [Session.Close]⟩
        intro c1 msg1 _ h1 h2
        simp only [Option.some.injEq] at h1
        subst h1
        simp_all
      | some msg =>
        simp only [Conn.Close, hce]
        refine ⟨by simp, ?_, ?_, by simp [Session.Close]⟩
        · intro c1 msg1 _ h1 h2
          simp only [Option.some.injEq] at h1
          subst h1
          simp_all
        · intro e he
          simp only [if_true, Outcome.ret.injEq, Option.some.injEq] at he
          rw [← he]

/-- An instance of C9 on a transport whose close fails. -/
theorem Session.Close_idempotent_witness :
    (closeFailing.Close).1.Connected = false ∧
    (∀ c msg, closeFailing.Connected = true → closeFailing.connection = some c →
      c.closeErr = some msg →
      (closeFailing.Close).2 = Outcome.ret (some ⟨1, msg, "Connection"⟩)) ∧
    (∀ e, (closeFailing.Close).2 = Outcome.ret (some e) → e.Category = "Connection") ∧
    (closeFailing.Close).1.Close = ((closeFailing.Close).1, Outcome.ret none) :=
  Session.Close_idempotent closeFailing

/-! ## The request frame -/

theorem wireBytes_append (a b : List ConnEvent) :
    wireBytes (a ++ b) = wireBytes a ++ wireBytes b := by
  induction a with
  | nil => simp [wireBytes]
  | cons e rest ih => cases e <;> simp [wireBytes, ih]

theorem Conn.Write_accepting (c : Conn) (data : List Byte) (h : c.accepting) :
    (c.Write data).2 = none ∧ (c.Write data).1.accepting ∧
    (c.Write data).1.sent = c.sent ++ data := by
  unfold Conn.accepting at h
  unfold Conn.Write
  cases hw : c.writeFaults with
  | nil => simp [Conn.accepting, hw, Conn.sent, wireBytes_append, wireBytes]
  | cons f rest =>
    rw [hw] at h
    have hf : f = none := h f (by simp)
    subst hf
    refine ⟨rfl, ?_, ?_⟩
    · intro g hg
      exact h g (by simp at hg ⊢; exact Or.inr hg)
    · simp [Conn.sent, wireBytes_append, wireBytes]

theorem Request.writeStep_accepting (data : List Byte) (st : CallChain × RequestVars)
    (h : st.2.conn.accepting) :
    (Request.writeStep data st).1 = st.1 ∧
    (Request.writeStep data st).2.conn.accepting ∧
    (Request.writeStep data st).2.conn.sent = st.2.conn.sent ++ data ∧
    (Request.writeStep data st).2.request = st.2.request := by
  have hacc : (st.2.conn.SetWriteDeadline st.2.timeoutReadWrite).accepting := h
  have hsent : (st.2.conn.SetWriteDeadline st.2.timeoutReadWrite).sent = st.2.conn.sent := by
    simp [Conn.SetWriteDeadline, Conn.sent, wireBytes_append, wireBytes]
  obtain ⟨h1, h2, h3⟩ := Conn.Write_accepting _ data hacc
  unfold Request.writeStep
  simp only
  rw [h1]
  exact ⟨rfl, h2, by rw [← hsent]; exact h3, rfl⟩

theorem Conn.ReadFull_sent (c : Conn) (buf : List Byte) : (c.ReadFull buf).1.sent = c.sent := by
  unfold Conn.ReadFull
  split_ifs <;> simp [Conn.sent, wireBytes_append, wireBytes]

theorem Request.step4_sent (st : CallChain × RequestVars) :
    (Request.step4 st).2.conn.sent = st.2.conn.sent := by
  have h := Conn.ReadFull_sent (st.2.conn.SetReadDeadline st.2.timeoutReadWrite) st.2.bufLen
  have h0 : (st.2.conn.SetReadDeadline st.2.timeoutReadWrite).sent = st.2.conn.sent := by
    simp [Conn.SetReadDeadline, Conn.sent, wireBytes_append, wireBytes]
  unfold Request.step4
  simp only
  split <;> simp_all

theorem Request.step5_sent (st : CallChain × RequestVars) :
    (Request.step5 st).2.conn.sent = st.2.conn.sent := by
  have h := Conn.ReadFull_sent (st.2.conn.SetReadDeadline st.2.timeoutReadWrite)
    (List.replicate (Uint32 st.2.bufLen) 0)
  have h0 : (st.2.conn.SetReadDeadline st.2.timeoutReadWrite).sent = st.2.conn.sent := by
    simp [Conn.SetReadDeadline, Conn.sent, wireBytes_append, wireBytes]
  unfold Request.step5
  simp only
  split <;> simp_all

/-- The tail of `Request`, from the first read on, writes nothing. -/
theorem Request.reads_sent (st : CallChain × RequestVars) :
    (CallChain.run [Exec.lift Request.step4, Exec.lift Request.step5]
      (Exec.lift Request.onFailure) st).1.2.conn.sent = st.2.conn.sent := by
  have h4 := Request.step4_sent st
  have h5 := Request.step5_sent (Request.step4 st)
  simp only [CallChain.run, List.foldr, Exec.andThen, CallChain.Do, CallChain.Failure, Exec.lift,
    Request.onFailure]
  by_cases e0 : st.1.Err = none
  · by_cases e4 : (Request.step4 st).1.Err = none
    · by_cases e5 : (Request.step5 (Request.step4 st)).1.Err = none
      · simp [e0, e4, e5, h4, h5]
      · simp [e0, e4, e5, h4, h5]
    · simp [e0, e4, h4]
  · simp [e0]

/-- The three writes of `Request` on a transport that accepts every write. -/
theorem Request.writes_accepting (vars : RequestVars) (h : vars.conn.accepting) :
    (Request.step1 ({ Err := none }, vars)).1.Err = none ∧
    (Request.step2 (Request.step1 ({ Err := none }, vars))).1.Err = none ∧
    (Request.step3 (Request.step2 (Request.step1 ({ Err := none }, vars)))).1.Err = none ∧
    (Request.step3 (Request.step2 (Request.step1 ({ Err := none }, vars)))).2.conn.sent =
      vars.conn.sent ++ (([78, 1, 0, 0] : List Byte) ++
        PutUint32 (toUint32 vars.request.length) ++ vars.request) := by
  obtain ⟨a1, a2, a3, a4⟩ := Request.writeStep_accepting
    [PROTOCOL_PREAMBLE_LEAD, PROTOCOL_ENCODING, PROTOCOL_RESERVED, PROTOCOL_RESERVED]
    (({ Err := none } : CallChain),
      { vars with preamble :=
        [PROTOCOL_PREAMBLE_LEAD, PROTOCOL_ENCODING, PROTOCOL_RESERVED, PROTOCOL_RESERVED] }) h
  have e1 : Request.step1 (({ Err := none } : CallChain), vars) = Request.writeStep
    [PROTOCOL_PREAMBLE_LEAD, PROTOCOL_ENCODING, PROTOCOL_RESERVED, PROTOCOL_RESERVED]
    (({ Err := none } : CallChain),
      { vars with preamble :=
        [PROTOCOL_PREAMBLE_LEAD, PROTOCOL_ENCODING, PROTOCOL_RESERVED, PROTOCOL_RESERVED] }) := rfl
  rw [← e1] at a1 a2 a3 a4
  generalize Request.step1 (({ Err := none } : CallChain), vars) = st1 at a1 a2 a3 a4 ⊢
  obtain ⟨b1, b2, b3, b4⟩ := Request.writeStep_accepting
    (PutUint32 (toUint32 st1.2.request.length))
    (st1.1, { st1.2 with bufLen := PutUint32 (toUint32 st1.2.request.length) }) a2
  have e2 : Request.step2 st1 = Request.writeStep
    (PutUint32 (toUint32 st1.2.request.length))
    (st1.1, { st1.2 with bufLen := PutUint32 (toUint32 st1.2.request.length) }) := rfl
  rw [← e2] at b1 b2 b3 b4
  generalize Request.step2 st1 = st2 at b1 b2 b3 b4 ⊢
  obtain ⟨c1, c2, c3, c4⟩ := Request.writeStep_accepting st2.2.request st2 b2
  have e3 : Request.step3 st2 = Request.writeStep st2.2.request st2 := rfl
  rw [← e3] at c1 c2 c3 c4
  have n1 : st1.1.Err = none := by rw [a1]
  have n2 : st2.1.Err = none := by rw [b1]; exact n1
  have n3 : (Request.step3 st2).1.Err = none := by rw [c1]; exact n2
  refine ⟨n1, n2, n3, ?_⟩
  rw [c3, b3, a3]
  simp only at a4 b4
  rw [b4, a4]
  simp [PROTOCOL_PREAMBLE_LEAD, PROTOCOL_ENCODING, PROTOCOL_RESERVED]

theorem Uint32_PutUint32 (v : Nat) (h : v < 2 ^ 32) : Uint32 (PutUint32 v) = v := by
  simp only [Uint32, PutUint32, Fin.ofNat, Nat.succ_eq_add_one]
  omega

/-- C1: on a connected session whose transport accepts every write, and for a
payload `p` whose length fits in 32 bits, `Request` puts on the wire exactly
`'N', 1, 0, 0`, the four bytes of the big-endian length and the bytes of `p`;
decoding bytes 4..7 of that frame gives the length and the bytes after them
are `p`. -/
theorem Session.Request_frame (s : Session) (c : Conn) (p : List Byte)
    (hconn : s.Connected = true) (hc : s.connection = some c)
    (hacc : ∀ f ∈ c.writeFaults, f = none) (hlen : p.length < 2 ^ 32) :
    ∃ c1, (s.Request p).1.connection = some c1 ∧
      c1.sent = c.sent ++ (([78, 1, 0, 0] : List Byte) ++ PutUint32 p.length ++ p) ∧
      (c1.sent.drop c.sent.length).take 4 = ([78, 1, 0, 0] : List Byte) ∧
      Uint32 (((c1.sent.drop c.sent.length).drop 4).take 4) = p.length ∧
      ((c1.sent.drop c.sent.length).drop 8).take p.length = p ∧
      (c1.sent.drop c.sent.length).length = 8 + p.length := by
  have hmain : ∃ c1, (s.Request p).1.connection = some c1 ∧
      c1.sent = c.sent ++ (([78, 1, 0, 0] : List Byte) ++ PutUint32 p.length ++ p) := by
    unfold Session.Request
    simp only [hconn, hc, Bool.not_true, Bool.false_eq_true, if_false]
    refine ⟨_, rfl, ?_⟩
    obtain ⟨n1, n2, n3, hs⟩ := Request.writes_accepting
      { conn := c, timeoutReadWrite := s.TimeoutReadWrite, request := p,
        preamble := [0, 0, 0, 0], bufLen := [0, 0, 0, 0], err := none, bufResponse := none,
        errReply := none } hacc
    have hrest := Request.reads_sent (Request.step3 (Request.step2 (Request.step1
      ({ Err := none },
       { conn := c, timeoutReadWrite := s.TimeoutReadWrite, request := p,
         preamble := [0, 0, 0, 0], bufLen := [0, 0, 0, 0], err := none, bufResponse := none,
         errReply := none }))))
    simp only [CallChain.run, List.foldr] at hrest ⊢
    simp only [Exec.andThen, CallChain.Do, Exec.lift] at hrest ⊢
    simp only [n1, n2, n3, if_true] at hrest ⊢
    rw [hrest, hs]
    have : toUint32 p.length = p.length := Nat.mod_eq_of_lt hlen
    rw [this]
  obtain ⟨c1, h1, h2⟩ := hmain
  refine ⟨c1, h1, h2, ?_⟩
  have hu := Uint32_PutUint32 p.length hlen
  have hl : (PutUint32 p.length).length = 4 := rfl
  rw [h2, List.drop_left]
  refine ⟨by simp, ?_, ?_, ?_⟩
  · have : (List.drop 4 (([78, 1, 0, 0] : List Byte) ++ PutUint32 p.length ++ p)).take 4
        = PutUint32 p.length := by
      simp [PutUint32]
    rw [this, hu]
  · simp [PutUint32]
  · simp [PutUint32]; omega

/-- An instance of C1: the empty payload on a fresh connection. -/
theorem Session.Request_frame_witness :
    ∃ c1, ((liveSession (peerSends [])).Request []).1.connection = some c1 ∧
      c1.sent = (peerSends []).sent ++ (([78, 1, 0, 0] : List Byte) ++ PutUint32 0 ++ []) ∧
      (c1.sent.drop (peerSends []).sent.length).take 4 = ([78, 1, 0, 0] : List Byte) ∧
      Uint32 (((c1.sent.drop (peerSends []).sent.length).drop 4).take 4) = 0 ∧
      ((c1.sent.drop (peerSends []).sent.length).drop 8).take 0 = [] ∧
      (c1.sent.drop (peerSends []).sent.length).length = 8 + 0 :=
  Session.Request_frame (liveSession (peerSends [])) (peerSends []) [] rfl rfl
    (by intro f hf; simp [peerSends] at hf) (by decide)

/-! ## Result of a failed request -/

/-- C2, evaluation: the peer announces five bytes, delivers two and closes the
stream.  `Request` returns the error together with the five byte buffer it had
allocated, the two bytes that arrived at its front. -/
theorem Session.Request_short_payload :
    ((liveSession (peerSends [0, 0, 0, 5, 65, 66])).Request [123, 125]).2 =
      Outcome.ret (some [65, 66, 0, 0, 0], some ⟨1, "unexpected EOF", "Network"⟩) := by
  decide

theorem Conn.Write_incoming (c : Conn) (data : List Byte) :
    (c.Write data).1.incoming = c.incoming := by
  unfold Conn.Write
  split <;> rfl

theorem Request.writeStep_fields (data : List Byte) (st : CallChain × RequestVars) :
    (Request.writeStep data st).2.conn.incoming = st.2.conn.incoming ∧
    (Request.writeStep data st).2.bufLen = st.2.bufLen ∧
    (Request.writeStep data st).2.timeoutReadWrite = st.2.timeoutReadWrite := by
  have h := Conn.Write_incoming (st.2.conn.SetWriteDeadline st.2.timeoutReadWrite) data
  have h0 : (st.2.conn.SetWriteDeadline st.2.timeoutReadWrite).incoming = st.2.conn.incoming :=
    rfl
  unfold Request.writeStep
  simp only
  split <;> simp_all

/-- The reads of `Request` when the peer delivers the four bytes `hdr` of the
length and then fewer payload bytes than `hdr` announces: the buffer allocated
for the payload stays in `bufResponse`, and the error is recorded. -/
theorem Request.reads_short (st : CallChain × RequestVars) (hdr rest : List Byte)
    (hE : st.1.Err = none) (hb : st.2.bufLen.length = 4)
    (hin : st.2.conn.incoming = hdr ++ rest) (hh : hdr.length = 4)
    (hr : rest.length < Uint32 hdr) :
    ∃ msg, (CallChain.run [Exec.lift Request.step4, Exec.lift Request.step5]
        (Exec.lift Request.onFailure) st).1.2.bufResponse =
          some (rest ++ List.replicate (Uint32 hdr - rest.length) 0) ∧
      (CallChain.run [Exec.lift Request.step4, Exec.lift Request.step5]
        (Exec.lift Request.onFailure) st).1.2.errReply = some ⟨1, msg, "Network"⟩ := by
  have h4 : Request.step4 st =
      (st.1, { st.2 with
        conn := { (st.2.conn.SetReadDeadline st.2.timeoutReadWrite) with
          incoming := rest,
          events := (st.2.conn.SetReadDeadline st.2.timeoutReadWrite).events ++
            [ConnEvent.read 4 hdr] },
        bufLen := hdr, err := none }) := by
    simp only [Request.step4, Conn.ReadFull, Conn.SetReadDeadline, hb, hin]
    simp [hh]
  have hN : (List.replicate (Uint32 hdr) (0 : Byte)).length = Uint32 hdr := by simp
  have hne : ¬ (Uint32 hdr = 0) := by omega
  have hlt : ¬ (Uint32 hdr ≤ rest.length) := by omega
  simp only [CallChain.run, List.foldr, Exec.andThen, CallChain.Do, CallChain.Failure,
    Exec.lift, hE, if_true, h4]
  simp only [Request.step5, Conn.ReadFull, Conn.SetReadDeadline, hN, hne, hlt, if_false,
    Request.onFailure, List.drop_replicate]
  simp

/-- Whenever the response length is read and the stream then ends before the
announced number of payload bytes, `Request` returns the buffer it allocated,
filled as far as bytes arrived, together with a "Network" error. -/
theorem Session.Request_payload_read_fails (s : Session) (c : Conn)
    (p hdr rest : List Byte)
    (hconn : s.Connected = true) (hc : s.connection = some c)
    (hacc : ∀ f ∈ c.writeFaults, f = none)
    (hin : c.incoming = hdr ++ rest) (hh : hdr.length = 4) (hr : rest.length < Uint32 hdr) :
    ∃ msg, (s.Request p).2 =
      Outcome.ret (some (rest ++ List.replicate (Uint32 hdr - rest.length) 0),
        some ⟨1, msg, "Network"⟩) := by
  unfold Session.Request
  simp only [hconn, hc, Bool.not_true, Bool.false_eq_true, if_false]
  obtain ⟨n1, n2, n3, -⟩ := Request.writes_accepting
    { conn := c, timeoutReadWrite := s.TimeoutReadWrite, request := p,
      preamble := [0, 0, 0, 0], bufLen := [0, 0, 0, 0], err := none, bufResponse := none,
      errReply := none } hacc
  have hrun : CallChain.run
      [Exec.lift Request.step1, Exec.lift Request.step2, Exec.lift Request.step3,
       Exec.lift Request.step4, Exec.lift Request.step5]
      (Exec.lift Request.onFailure)
      ({ Err := none },
       { conn := c, timeoutReadWrite := s.TimeoutReadWrite, request := p,
         preamble := [0, 0, 0, 0], bufLen := [0, 0, 0, 0], err := none, bufResponse := none,
         errReply := none }) =
      CallChain.run [Exec.lift Request.step4, Exec.lift Request.step5]
        (Exec.lift Request.onFailure)
        (Request.step3 (Request.step2 (Request.step1
          ({ Err := none },
           { conn := c, timeoutReadWrite := s.TimeoutReadWrite, request := p,
             preamble := [0, 0, 0, 0], bufLen := [0, 0, 0, 0], err := none,
             bufResponse := none, errReply := none })))) := by
    simp only [CallChain.run, List.foldr]
    simp only [Exec.andThen, CallChain.Do, Exec.lift]
    simp only [n1, n2, n3, if_true]
  rw [hrun]
  have f1 := Request.writeStep_fields
    [PROTOCOL_PREAMBLE_LEAD, PROTOCOL_ENCODING, PROTOCOL_RESERVED, PROTOCOL_RESERVED]
    (({ Err := none } : CallChain),
      { conn := c, timeoutReadWrite := s.TimeoutReadWrite, request := p,
        preamble :=
          [PROTOCOL_PREAMBLE_LEAD, PROTOCOL_ENCODING, PROTOCOL_RESERVED, PROTOCOL_RESERVED],
        bufLen := [0, 0, 0, 0], err := none, bufResponse := none, errReply := none })
  have e1 : Request.step1 (({ Err := none } : CallChain),
      { conn := c, timeoutReadWrite := s.TimeoutReadWrite, request := p,
        preamble := [0, 0, 0, 0], bufLen := [0, 0, 0, 0], err := none, bufResponse := none,
        errReply := none }) = Request.writeStep
    [PROTOCOL_PREAMBLE_LEAD, PROTOCOL_ENCODING, PROTOCOL_RESERVED, PROTOCOL_RESERVED]
    (({ Err := none } : CallChain),
      { conn := c, timeoutReadWrite := s.TimeoutReadWrite, request := p,
        preamble :=
          [PROTOCOL_PREAMBLE_LEAD, PROTOCOL_ENCODING, PROTOCOL_RESERVED, PROTOCOL_RESERVED],
        bufLen := [0, 0, 0, 0], err := none, bufResponse := none, errReply := none }) := rfl
  rw [← e1] at f1
  generalize Request.step1 (({ Err := none } : CallChain),
      { conn := c, timeoutReadWrite := s.TimeoutReadWrite, request := p,
        preamble := [0, 0, 0, 0], bufLen := [0, 0, 0, 0], err := none, bufResponse := none,
        errReply := none }) = st1 at n1 n2 n3 f1 ⊢
  have f2 := Request.writeStep_fields (PutUint32 (toUint32 st1.2.request.length))
    (st1.1, { st1.2 with bufLen := PutUint32 (toUint32 st1.2.request.length) })
  have e2 : Request.step2 st1 = Request.writeStep
    (PutUint32 (toUint32 st1.2.request.length))
    (st1.1, { st1.2 with bufLen := PutUint32 (toUint32 st1.2.request.length) }) := rfl
  rw [← e2] at f2
  generalize Request.step2 st1 = st2 at n2 n3 f2 ⊢
  have f3 := Request.writeStep_fields st2.2.request st2
  have e3 : Request.step3 st2 = Request.writeStep st2.2.request st2 := rfl
  rw [← e3] at f3
  have hb : (Request.step3 st2).2.bufLen.length = 4 := by
    rw [f3.2.1, f2.2.1]
    rfl
  have hi : (Request.step3 st2).2.conn.incoming = hdr ++ rest := by
    rw [f3.1, f2.1, f1.1]
    exact hin
  obtain ⟨msg, r1, r2⟩ := Request.reads_short (Request.step3 st2) hdr rest n3 hb hi hh hr
  refine ⟨msg, ?_⟩
  rw [r1, r2]

/-! ## The call chain -/

/-- Once `Err` is set, the rest of a chain runs the failure callback and
nothing else. -/
theorem CallChain.run_of_err {ρ : Type} (dos : List (Exec ρ)) (failure : Exec ρ)
    (st : CallChain × ρ) (h : st.1.Err ≠ none) :
    CallChain.run dos failure st = failure st := by
  induction dos with
  | nil => simp [CallChain.run, CallChain.Failure, h]
  | cons fn rest ih =>
    have : CallChain.run (fn :: rest) failure =
        Exec.andThen (CallChain.Do fn) (CallChain.run rest failure) := rfl
    rw [this]
    simp only [Exec.andThen, CallChain.Do, h, if_false]
    exact ih

theorem applyAll_cons {σ : Type} (f : σ → σ) (fs : List (σ → σ)) (s : σ) :
    applyAll (f :: fs) s = applyAll fs (f s) := rfl

/-- Numbered callbacks from a state without error: either none of them sets
`Err`, all of them run in order and the failure callback does not; or they run
in order up to the first one that sets `Err`, and then the failure callback
runs. -/
theorem CallChain.run_logged {ρ : Type} (fs : List (CallChain × ρ → CallChain × ρ))
    (g : CallChain × ρ → CallChain × ρ) (m k : Nat) (sc : CallChain) (r : ρ) (l : List Nat)
    (h : sc.Err = none) :
    (CallChain.run (loggedFrom k fs) (logged m g) (sc, (r, l))).2 = none ∧
    (((∀ i, i ≤ fs.length → (applyAll (fs.take i) (sc, r)).1.Err = none) ∧
        (CallChain.run (loggedFrom k fs) (logged m g) (sc, (r, l))).1.2.2 =
          l ++ List.range' k fs.length ∧
        ((CallChain.run (loggedFrom k fs) (logged m g) (sc, (r, l))).1.1,
         (CallChain.run (loggedFrom k fs) (logged m g) (sc, (r, l))).1.2.1) =
          applyAll fs (sc, r)) ∨
     (∃ j, j < fs.length ∧
        (∀ i, i ≤ j → (applyAll (fs.take i) (sc, r)).1.Err = none) ∧
        (applyAll (fs.take (j + 1)) (sc, r)).1.Err ≠ none ∧
        (CallChain.run (loggedFrom k fs) (logged m g) (sc, (r, l))).1.2.2 =
          l ++ List.range' k (j + 1) ++ [m] ∧
        ((CallChain.run (loggedFrom k fs) (logged m g) (sc, (r, l))).1.1,
         (CallChain.run (loggedFrom k fs) (logged m g) (sc, (r, l))).1.2.1) =
          g (applyAll (fs.take (j + 1)) (sc, r)))) := by
  induction fs generalizing k sc r l with
  | nil =>
    refine ⟨by simp [loggedFrom, CallChain.run, CallChain.Failure, h], Or.inl ⟨?_, ?_, ?_⟩⟩
    · intro i _
      simpa [applyAll] using h
    · simp [loggedFrom, CallChain.run, CallChain.Failure, h]
    · simp [loggedFrom, CallChain.run, CallChain.Failure, h, applyAll]
  | cons f fs ih =>
    have hrun : CallChain.run (loggedFrom k (f :: fs)) (logged m g) (sc, (r, l)) =
        CallChain.run (loggedFrom (k + 1) fs) (logged m g)
          ((f (sc, r)).1, ((f (sc, r)).2, l ++ [k])) := by
      have : CallChain.run (loggedFrom k (f :: fs)) (logged m g) =
          Exec.andThen (CallChain.Do (logged k f))
            (CallChain.run (loggedFrom (k + 1) fs) (logged m g)) := rfl
      rw [this]
      simp [Exec.andThen, CallChain.Do, h, logged]
    rw [hrun]
    by_cases hf : (f (sc, r)).1.Err = none
    · obtain ⟨p0, hcase⟩ := ih (k + 1) (f (sc, r)).1 (f (sc, r)).2 (l ++ [k]) hf
      refine ⟨p0, ?_⟩
      rcases hcase with ⟨q1, q2, q3⟩ | ⟨j, hj, q1, q2, q3, q4⟩
      · refine Or.inl ⟨?_, ?_, ?_⟩
        · intro i hi
          cases i with
          | zero => simpa [applyAll] using h
          | succ i =>
            have := q1 i (by simpa using hi)
            simpa [applyAll_cons] using this
        · rw [q2]
          simp [List.range'_succ]
        · rw [q3]
          rfl
      · refine Or.inr ⟨j + 1, by simpa using hj, ?_, ?_, ?_, ?_⟩
        · intro i hi
          cases i with
          | zero => simpa [applyAll] using h
          | succ i =>
            have := q1 i (by omega)
            simpa [applyAll_cons] using this
        · simpa [applyAll_cons] using q2
        · rw [q3]
          simp [List.range'_succ]
        · rw [q4]
          rfl
    · have hne : ((f (sc, r)).1, ((f (sc, r)).2, l ++ [k])).1.Err ≠ none := hf
      rw [CallChain.run_of_err _ _ _ hne]
      refine ⟨rfl, Or.inr ⟨0, by simp, ?_, ?_, ?_, ?_⟩⟩
      · intro i hi
        have : i = 0 := by omega
        subst this
        simpa [applyAll] using h
      · simpa [applyAll] using hf
      · simp [logged, List.range'_succ]
      · simp [logged, applyAll]

/-- Three callbacks of which the second sets `Err`: the callbacks 0 and 1 run,
the third does not, and then the failure callback, which has number 3, runs. -/
theorem CallChain.run_second_fails :
    (CallChain.run
      (loggedFrom 0 [id, fun st => ({ Err := some ⟨1, "write failed", "Network"⟩ }, st.2), id])
      (logged 3 id) ({ Err := none }, ((), []))).1.2.2 = [0, 1, 3] := by
  decide

/-- C7: on a fresh chain (`Err == nil`), `Do` of the callbacks `fs` in turn
followed by `Failure g` never panics by itself and runs either all of `fs` in
order and not `g`, when none of them sets `Err`; or the callbacks number
`0 … j` in order, where `j` is the first one that sets `Err`, then `g` once
with that error recorded, and nothing else.  The list in the third component
is the list of callbacks that ran, `g` having number `fs.length`. -/
theorem CallChain.Do_Failure_order {ρ : Type} (fs : List (CallChain × ρ → CallChain × ρ))
    (g : CallChain × ρ → CallChain × ρ) (r : ρ) :
    (CallChain.run (loggedFrom 0 fs) (logged fs.length g) ({ Err := none }, (r, []))).2 = none ∧
    (((∀ i, i ≤ fs.length → (applyAll (fs.take i) ({ Err := none }, r)).1.Err = none) ∧
        (CallChain.run (loggedFrom 0 fs) (logged fs.length g) ({ Err := none }, (r, []))).1.2.2 =
          List.range fs.length ∧
        ((CallChain.run (loggedFrom 0 fs) (logged fs.length g) ({ Err := none }, (r, []))).1.1,
         (CallChain.run (loggedFrom 0 fs) (logged fs.length g) ({ Err := none }, (r, []))).1.2.1) =
          applyAll fs ({ Err := none }, r)) ∨
     (∃ j, j < fs.length ∧
        (∀ i, i ≤ j → (applyAll (fs.take i) ({ Err := none }, r)).1.Err = none) ∧
        (applyAll (fs.take (j + 1)) ({ Err := none }, r)).1.Err ≠ none ∧
        (CallChain.run (loggedFrom 0 fs) (logged fs.length g) ({ Err := none }, (r, []))).1.2.2 =
          List.range (j + 1) ++ [fs.length] ∧
        ((CallChain.run (loggedFrom 0 fs) (logged fs.length g) ({ Err := none }, (r, []))).1.1,
         (CallChain.run (loggedFrom 0 fs) (logged fs.length g) ({ Err := none }, (r, []))).1.2.1) =
          g (applyAll (fs.take (j + 1)) ({ Err := none }, r)))) := by
  have h := CallChain.run_logged fs g fs.length 0 { Err := none } r [] rfl
  simpa [List.range_eq_range'] using h

/-! ## Connect -/

/-- A malformed address: `Connect` reports a "Connection" error and leaves the
session and the dialer as they were. -/
theorem Session.Connect_malformed (env : Env) (d : Dialer) (s : Session) (address msg : String)
    (h : env.parse address = Except.error msg) :
    Session.Connect env d s address =
      (d, s, some ⟨1, "Invalid connection string", "Connection"⟩) := by
  simp [Session.Connect, h]

/-- A scheme other than "tcp" and "local": whatever the dialer does, `Connect`
returns an error of category "Connection". -/
theorem Session.Connect_bad_scheme_error (env : Env) (d : Dialer) (s : Session)
    (address : String) (uri : URL) (h : env.parse address = Except.ok uri)
    (h1 : uri.Scheme ≠ "tcp") (h2 : uri.Scheme ≠ "local") :
    ∃ e, (Session.Connect env d s address).2.2 = some e ∧ e.Category = "Connection" := by
  simp only [Session.Connect, h, h1, h2, if_false, ne_eq, not_false_eq_true, if_true]
  split <;> simp

/-- A scheme other than "tcp" and "local" does not stop `Connect` from
dialing: the outcome of the dial decides `Connected`, and a connection that
the dialer hands back is stored. -/
theorem Session.Connect_bad_scheme_dials (env : Env) (d : Dialer) (s : Session)
    (address : String) (uri : URL) (h : env.parse address = Except.ok uri)
    (h1 : uri.Scheme ≠ "tcp") (h2 : uri.Scheme ≠ "local") :
    (Session.Connect env d s address).1.calls = d.calls + 1 ∧
    (∀ con, d.script d.calls uri.Scheme uri.Host
        (Session.Connect env d s address).2.1.TimeoutConnection = Except.ok con →
      (Session.Connect env d s address).2.1.Connected = true ∧
      (Session.Connect env d s address).2.1.connection = some con) := by
  simp only [Session.Connect, h, h1, h2, if_false, ne_eq, not_false_eq_true, if_true,
    Dialer.DialContext]
  split
  · rename_i d1 msg heq
    simp only [Prod.mk.injEq] at heq
    refine ⟨by rw [← heq.1], ?_⟩
    intro con hcon
    simp only at hcon
    rw [heq.2] at hcon
    cases hcon
  · rename_i d1 con heq
    simp only [Prod.mk.injEq] at heq
    refine ⟨by rw [← heq.1], ?_⟩
    intro con1 hcon
    simp only at hcon
    rw [heq.2] at hcon
    cases hcon
    simp

/-- C4, evaluation: a fresh session and the address "ftp://bad".  Whatever the
dialer does, `Connect` returns an error of category "Connection" and the two
timeouts of the session, 0 before the call, are 15 and 30 after it. -/
theorem Session.Connect_ftp_bad (d : Dialer) :
    (∃ e, (Session.Connect scenarioEnv d Session.zero "ftp://bad").2.2 = some e ∧
      e.Category = "Connection") ∧
    Session.zero.TimeoutConnection = 0 ∧ Session.zero.TimeoutReadWrite = 0 ∧
    (Session.Connect scenarioEnv d Session.zero "ftp://bad").2.1.TimeoutConnection = 15 ∧
    (Session.Connect scenarioEnv d Session.zero "ftp://bad").2.1.TimeoutReadWrite = 30 := by
  have hp : scenarioEnv.parse "ftp://bad" = Except.ok ⟨"ftp", "bad", ""⟩ := rfl
  refine ⟨Session.Connect_bad_scheme_error scenarioEnv d Session.zero "ftp://bad" _ hp
    (by decide) (by decide), rfl, rfl, ?_, ?_⟩
  · simp only [Session.Connect, hp, Session.zero]
    split <;> simp
  · simp only [Session.Connect, hp, Session.zero]
    split <;> simp

/-! ## Filling the pool -/

/-- C5, evaluation: pool size 1 and the address "ftp://bad", on which the dial
fails.  `tryConnectNode` returns the connection error, the pool holds one
session, none of its sessions is connected, and `needReconnect` is false. -/
theorem tryConnectNode_ftp_bad_size_one :
    (tryConnectNode scenarioEnv (freshServer "ftp://bad" 1) (emptyWorld deadDialer)).2 =
      some ⟨1, "dial ftp: unknown network ftp", "Connection"⟩ ∧
    (tryConnectNode scenarioEnv (freshServer "ftp://bad" 1) (emptyWorld deadDialer)).1.1.sessions
      = [0] ∧
    connectedCount
      (tryConnectNode scenarioEnv (freshServer "ftp://bad" 1) (emptyWorld deadDialer)).1.1
      (tryConnectNode scenarioEnv (freshServer "ftp://bad" 1) (emptyWorld deadDialer)).1.2 = 0 ∧
    (tryConnectNode scenarioEnv (freshServer "ftp://bad" 1)
      (emptyWorld deadDialer)).1.1.needReconnect = false := by
  decide

/-! ## Selecting a session -/

/-- C6, evaluation: three connected sessions and the counter at 2147483647.
The increment wraps to -2147483648, the remainder is -2, and the lookup
panics: no session is returned. -/
theorem getSession_counter_wraps :
    (getSession.index (poolOfThree 2147483647).1).2 = Outcome.ret (-2) ∧
    (getSession (poolOfThree 2147483647).1).1.nextsession = -2147483648 ∧
    (getSession (poolOfThree 2147483647).1).2 = Outcome.panic "index out of range" := by
  decide

/-- C3, counterexample: pool size 3, the first dial succeeds and the second
fails.  `tryConnectNode` leaves two sessions in the pool, the first
`getSession` after it uses index 1, and the second uses index 2, which is not
below the length 2 of the session sequence: the lookup panics. -/
theorem getSession_index_short_pool :
    shortFill.sessions = [0, 1] ∧
    shortFill.needReconnect = true ∧
    (getSession.index shortFill).2 = Outcome.ret 1 ∧
    (getSession.index (getSession shortFill).1).2 = Outcome.ret 2 ∧
    ¬ ((2 : Int) < ((getSession shortFill).1.sessions.length : Int)) ∧
    (getSession (getSession shortFill).1).2 = Outcome.panic "index out of range" := by
  decide

/-! ## The request handler -/

/-- C10, evaluation: pool size 1 whose only session failed to connect, and a
POST request with body `{}`.  `needReconnect` is false, the session selected
is the one at address 0, the request on it fails with the error
`{1, "Not connected", "Network"}`, whose serialization is not empty, and the
handler returns without a panic and without having written anything to the
response. -/
theorem handler_failure_writes_nothing :
    failedFill.1.needReconnect = false ∧
    (getSession failedFill.1).2 = Outcome.ret 0 ∧
    (failedFill.2.Request 0 [123, 125]).2 =
      Outcome.ret (none, some ⟨1, "Not connected", "Network"⟩) ∧
    scenarioEnv.marshal ⟨1, "Not connected", "Network"⟩ = Except.ok (bytesOf
      "\x7b\"Code\":1,\"Message\":\"Not connected\",\"Category\":\"Network\"\x7d") ∧
    (handler scenarioEnv failedFill.1 failedFill.2 ⟨"POST", Except.ok [123, 125]⟩).2 = none ∧
    (handler scenarioEnv failedFill.1 failedFill.2 ⟨"POST", Except.ok [123, 125]⟩).1.2.2 = [] := by
  refine ⟨by decide, by decide, by decide, rfl, by decide, by decide⟩

/-! ## Lemmas on the pool -/

theorem Session.Close_Connected (s : Session) : (s.Close).1.Connected = false := by
  unfold Session.Close
  cases hC : s.Connected with
  | false => simp [hC]
  | true =>
    cases hc : s.connection with
    | none => simp
    | some c => cases hce : c.closeErr <;> simp [Conn.Close, hce]

theorem Session.Close_Close (s : Session) : ((s.Close).1.Close).1 = (s.Close).1 := by
  have h := Session.Close_Connected s
  generalize (s.Close).1 = t at h
  simp [Session.Close, h]

theorem Session.Close_returns (s : Session) (h : s.ok) : ∃ r, (s.Close).2 = Outcome.ret r := by
  unfold Session.Close
  cases hC : s.Connected with
  | false => simp
  | true =>
    cases hc : s.connection with
    | none => exact absurd hc (h hC)
    | some c => cases hce : c.closeErr <;> simp [Conn.Close, hce]

theorem closeAll_spec (l : List Nat) (w : World) (h : ∀ p ∈ l, (w.mem p).ok) :
    (closeAll l w).2 = none ∧ (closeAll l w).1.brk = w.brk ∧
    (closeAll l w).1.dialer = w.dialer ∧
    (∀ q, (closeAll l w).1.mem q = if q ∈ l then ((w.mem q).Close).1 else w.mem q) := by
  induction l generalizing w with
  | nil => simp [closeAll]
  | cons p rest ih =>
    obtain ⟨r, hr⟩ := Session.Close_returns (w.mem p) (h p (by simp))
    have hstep : closeAll (p :: rest) w = closeAll rest (w.store p ((w.mem p).Close).1) := by
      simp only [closeAll, World.Close]
      rw [show (w.mem p).Close = (((w.mem p).Close).1, ((w.mem p).Close).2) from rfl, hr]
    have hmem : ∀ q, (w.store p ((w.mem p).Close).1).mem q =
        if q = p then ((w.mem p).Close).1 else w.mem q := fun q => rfl
    have hok : ∀ q ∈ rest, ((w.store p ((w.mem p).Close).1).mem q).ok := by
      intro q hq
      rw [hmem]
      by_cases hqp : q = p
      · simp only [hqp, if_true]
        intro hc
        rw [Session.Close_Connected] at hc
        cases hc
      · simp only [hqp, if_false]
        exact h q (by simp [hq])
    obtain ⟨i1, i2, i3, i4⟩ := ih (w.store p ((w.mem p).Close).1) hok
    rw [hstep]
    refine ⟨i1, by rw [i2]; rfl, by rw [i3]; rfl, ?_⟩
    intro q
    rw [i4, hmem]
    by_cases hqp : q = p
    · subst hqp
      by_cases hqr : q ∈ rest
      · simp [hqr, Session.Close_Close]
      · simp [hqr]
    · simp [hqp]

/-- One turn of the loop of `tryConnectNode`: a fresh session is connected. -/
theorem World.new_Connect (env : Env) (w : World) (connection : String) :
    (w.new).1.Connect env (w.new).2 connection =
      ({ mem := fun q => if q = w.brk then
            (Session.Connect env w.dialer Session.zero connection).2.1
          else (w.store w.brk Session.zero).mem q,
         brk := w.brk + 1,
         dialer := (Session.Connect env w.dialer Session.zero connection).1 },
       (Session.Connect env w.dialer Session.zero connection).2.2) := by
  simp [World.new, World.Connect, World.store]

theorem tryConnectNode.loop_succ (env : Env) (connection : String) (n : Nat) (w : World)
    (sessions : List Nat) :
    tryConnectNode.loop env connection (n + 1) w sessions =
      match (Session.Connect env w.dialer Session.zero connection).2.2 with
      | some e => (((w.new).1.Connect env (w.new).2 connection).1, sessions ++ [w.brk], some e)
      | none => tryConnectNode.loop env connection n
          ((w.new).1.Connect env (w.new).2 connection).1 (sessions ++ [w.brk]) := by
  have h := World.new_Connect env w connection
  have hp : (w.new).2 = w.brk := rfl
  rw [tryConnectNode.loop]
  rw [show w.new = ((w.new).1, (w.new).2) from rfl]
  simp only
  rw [show (w.new).1.Connect env (w.new).2 connection =
    (((w.new).1.Connect env (w.new).2 connection).1,
     ((w.new).1.Connect env (w.new).2 connection).2) from rfl]
  have h2 : ((w.new).1.Connect env (w.new).2 connection).2 =
      (Session.Connect env w.dialer Session.zero connection).2.2 := by rw [h]
  rw [h2, hp]
  cases (Session.Connect env w.dialer Session.zero connection).2.2 <;> rfl

theorem tryConnectNode.loop_spec (env : Env) (connection : String) (n : Nat) (w : World)
    (sessions : List Nat) :
    w.brk ≤ (tryConnectNode.loop env connection n w sessions).1.brk ∧
    (∀ q, q < w.brk → (tryConnectNode.loop env connection n w sessions).1.mem q = w.mem q) ∧
    (∀ p ∈ (tryConnectNode.loop env connection n w sessions).2.1, p ∈ sessions ∨ w.brk ≤ p) ∧
    (tryConnectNode.loop env connection n w sessions).2.1.length ≤ sessions.length + n := by
  induction n generalizing w sessions with
  | zero =>
    exact ⟨le_refl _, fun _ _ => rfl, fun p hp => Or.inl hp, le_refl _⟩
  | succ n ih =>
    rw [tryConnectNode.loop_succ]
    have hw := World.new_Connect env w connection
    have hbrk : ((w.new).1.Connect env (w.new).2 connection).1.brk = w.brk + 1 := by rw [hw]
    have hmem : ∀ q, q < w.brk →
        ((w.new).1.Connect env (w.new).2 connection).1.mem q = w.mem q := by
      intro q hq
      rw [hw]
      have : q ≠ w.brk := by omega
      simp [World.store, this]
    cases he : (Session.Connect env w.dialer Session.zero connection).2.2 with
    | some e =>
      simp only
      refine ⟨by omega, hmem, ?_, by simp⟩
      intro p hp
      simp only [List.mem_append, List.mem_singleton] at hp
      rcases hp with hp | hp
      · exact Or.inl hp
      · exact Or.inr (by omega)
    | none =>
      simp only
      obtain ⟨j1, j2, j3, j4⟩ :=
        ih ((w.new).1.Connect env (w.new).2 connection).1 (sessions ++ [w.brk])
      refine ⟨by omega, ?_, ?_, ?_⟩
      · intro q hq
        rw [j2 q (by omega)]
        exact hmem q hq
      · intro p hp
        rcases j3 p hp with hp1 | hp1
        · simp only [List.mem_append, List.mem_singleton] at hp1
          rcases hp1 with hp1 | hp1
          · exact Or.inl hp1
          · exact Or.inr (by omega)
        · exact Or.inr (by omega)
      · simp only [List.length_append, List.length_singleton] at j4
        omega

/-- What the loop of `tryConnectNode` produces depends on the world only
through the next free address and the dialer. -/
theorem tryConnectNode.loop_indep (env : Env) (connection : String) (n : Nat) (w v : World)
    (sessions : List Nat) (hb : w.brk = v.brk) (hd : w.dialer = v.dialer) :
    (tryConnectNode.loop env connection n w sessions).2 =
      (tryConnectNode.loop env connection n v sessions).2 := by
  induction n generalizing w v sessions with
  | zero => simp [tryConnectNode.loop]
  | succ n ih =>
    rw [tryConnectNode.loop_succ, tryConnectNode.loop_succ, ← hb, ← hd]
    cases he : (Session.Connect env w.dialer Session.zero connection).2.2 with
    | some e => rfl
    | none =>
      simp only
      apply ih
      · rw [World.new_Connect, World.new_Connect, hb]
      · rw [World.new_Connect, World.new_Connect, hd]

/-- The sessions the loop of `tryConnectNode` allocates end in a state that
depends on the world only through the next free address and the dialer. -/
theorem tryConnectNode.loop_indep_mem (env : Env) (connection : String) (n : Nat) (w v : World)
    (sessions : List Nat) (hb : w.brk = v.brk) (hd : w.dialer = v.dialer) :
    ∀ q, w.brk ≤ q → q < (tryConnectNode.loop env connection n w sessions).1.brk →
      (tryConnectNode.loop env connection n w sessions).1.mem q =
        (tryConnectNode.loop env connection n v sessions).1.mem q := by
  induction n generalizing w v sessions with
  | zero =>
    intro q h1 h2
    have : (tryConnectNode.loop env connection 0 w sessions).1.brk = w.brk := rfl
    omega
  | succ n ih =>
    have hw := World.new_Connect env w connection
    have hv := World.new_Connect env v connection
    have hwb : ((w.new).1.Connect env (w.new).2 connection).1.brk = w.brk + 1 := by rw [hw]
    have hvb : ((v.new).1.Connect env (v.new).2 connection).1.brk = v.brk + 1 := by rw [hv]
    have hm : ((w.new).1.Connect env (w.new).2 connection).1.mem w.brk =
        ((v.new).1.Connect env (v.new).2 connection).1.mem w.brk := by
      rw [hw, hv, ← hb, ← hd]
      simp
    have hdd : ((w.new).1.Connect env (w.new).2 connection).1.dialer =
        ((v.new).1.Connect env (v.new).2 connection).1.dialer := by
      rw [hw, hv, hd]
    rw [tryConnectNode.loop_succ, tryConnectNode.loop_succ, ← hb, ← hd]
    cases he : (Session.Connect env w.dialer Session.zero connection).2.2 with
    | some e =>
      intro q h1 h2
      simp only at h2 ⊢
      have : q = w.brk := by omega
      rw [this]
      exact hm
    | none =>
      intro q h1 h2
      simp only at h2 ⊢
      by_cases hq : q = w.brk
      · obtain ⟨-, a2, -, -⟩ := tryConnectNode.loop_spec env connection n
          ((w.new).1.Connect env (w.new).2 connection).1 (sessions ++ [w.brk])
        obtain ⟨-, b2, -, -⟩ := tryConnectNode.loop_spec env connection n
          ((v.new).1.Connect env (v.new).2 connection).1 (sessions ++ [w.brk])
        rw [a2 q (by omega), b2 q (by omega), hq]
        exact hm
      · exact ih _ _ _ (by omega) hdd q (by omega) h2

/-- The result of `tryConnectNode` in terms of the result of its loop. -/
theorem tryConnectNode_eq (env : Env) (srv : RestServer) (w : World) :
    tryConnectNode env srv w =
      (({ srv with
            sessions := (tryConnectNode.loop env srv.conf.Node.Connection
              srv.conf.Node.Poolsize.toNat w []).2.1,
            needReconnect := decide (((tryConnectNode.loop env srv.conf.Node.Connection
              srv.conf.Node.Poolsize.toNat w []).2.1.length : Int) < srv.conf.Node.Poolsize) },
        (tryConnectNode.loop env srv.conf.Node.Connection srv.conf.Node.Poolsize.toNat w []).1),
       (tryConnectNode.loop env srv.conf.Node.Connection
          srv.conf.Node.Poolsize.toNat w []).2.2) := rfl

/-- When the first connect attempt fails, the pool holds the one session that
failed and `needReconnect` is set only for a pool size of 2 or more. -/
theorem tryConnectNode_first_fails (env : Env) (srv : RestServer) (w : World) (e : Error)
    (hsize : 1 ≤ srv.conf.Node.Poolsize)
    (hfail : (Session.Connect env w.dialer Session.zero srv.conf.Node.Connection).2.2 = some e)
    (hconn : (Session.Connect env w.dialer Session.zero
      srv.conf.Node.Connection).2.1.Connected = false) :
    (tryConnectNode env srv w).2 = some e ∧
    (tryConnectNode env srv w).1.1.sessions = [w.brk] ∧
    connectedCount (tryConnectNode env srv w).1.1 (tryConnectNode env srv w).1.2 = 0 ∧
    ((tryConnectNode env srv w).1.1.needReconnect = true ↔ 2 ≤ srv.conf.Node.Poolsize) := by
  obtain ⟨m, hm⟩ : ∃ m, srv.conf.Node.Poolsize.toNat = m + 1 :=
    ⟨srv.conf.Node.Poolsize.toNat - 1, by omega⟩
  have hl : tryConnectNode.loop env srv.conf.Node.Connection srv.conf.Node.Poolsize.toNat w [] =
      (((w.new).1.Connect env (w.new).2 srv.conf.Node.Connection).1, [w.brk], some e) := by
    rw [hm, tryConnectNode.loop_succ, hfail]
    rfl
  rw [tryConnectNode_eq, hl]
  refine ⟨rfl, rfl, ?_, ?_⟩
  · simp only [connectedCount, World.new_Connect]
    simp [hconn]
  · simp only [List.length_singleton, Nat.cast_one, decide_eq_true_eq]
    omega

/-- A session that `Connect` has worked on satisfies the session invariant if
it did before. -/
theorem Session.Connect_ok (env : Env) (d : Dialer) (s : Session) (address : String)
    (h : s.ok) : (Session.Connect env d s address).2.1.ok := by
  unfold Session.Connect
  split
  · exact h
  · simp only
    split
    · intro hc
      simp at hc
    · intro _
      simp

/-- The pool `tryConnectNode` produces holds allocated sessions that satisfy
the session invariant. -/
theorem tryConnectNode.loop_ok (env : Env) (connection : String) (n : Nat) (w : World)
    (sessions : List Nat)
    (h : ∀ p ∈ sessions, p < w.brk ∧ (w.mem p).ok) :
    ∀ p ∈ (tryConnectNode.loop env connection n w sessions).2.1,
      p < (tryConnectNode.loop env connection n w sessions).1.brk ∧
      ((tryConnectNode.loop env connection n w sessions).1.mem p).ok := by
  induction n generalizing w sessions with
  | zero => exact h
  | succ n ih =>
    have hw := World.new_Connect env w connection
    have hstep : ∀ p ∈ sessions ++ [w.brk],
        p < ((w.new).1.Connect env (w.new).2 connection).1.brk ∧
        (((w.new).1.Connect env (w.new).2 connection).1.mem p).ok := by
      intro p hp
      rw [hw]
      simp only [List.mem_append, List.mem_singleton] at hp
      rcases hp with hp | hp
      · obtain ⟨h1, h2⟩ := h p hp
        have hne : p ≠ w.brk := by omega
        refine ⟨by simp only; omega, ?_⟩
        simpa [World.store, hne] using h2
      · subst hp
        refine ⟨by simp only; omega, ?_⟩
        simp only [if_true]
        exact Session.Connect_ok env w.dialer Session.zero connection (by intro hc; cases hc)
    rw [tryConnectNode.loop_succ]
    cases he : (Session.Connect env w.dialer Session.zero connection).2.2 with
    | some e => exact hstep
    | none => exact ih _ _ hstep

theorem tryConnectNode_pool_ok (env : Env) (srv : RestServer) (w : World) :
    ∀ p ∈ (tryConnectNode env srv w).1.1.sessions,
      p < (tryConnectNode env srv w).1.2.brk ∧
      (((tryConnectNode env srv w).1.2.mem p).Connected = true →
        ((tryConnectNode env srv w).1.2.mem p).connection ≠ none) := by
  intro p hp
  rw [tryConnectNode_eq] at hp ⊢
  exact tryConnectNode.loop_ok env _ _ w [] (by simp) p hp

/-! ## Reconnecting -/

/-- C8: for a pool whose sessions are allocated and satisfy the session
invariant (a connected session has a transport), `reconnectNode` returns; every
session held before the call is left as `Close` leaves it, so with
`Connected == false` also when the transport reports a close error; the
counter is 0; the sessions (their addresses and their state), the
`needReconnect` flag and the value returned are those `tryConnectNode`
produces from the empty pool; and no session held before the call is in the
pool afterwards. -/
theorem reconnectNode_spec (env : Env) (srv : RestServer) (w : World)
    (halloc : ∀ p ∈ srv.sessions, p < w.brk)
    (hok : ∀ p ∈ srv.sessions, (w.mem p).Connected = true → (w.mem p).connection ≠ none) :
    ∃ st err, reconnectNode env srv w = (st, Outcome.ret err) ∧
      (∀ p ∈ srv.sessions, st.2.mem p = ((w.mem p).Close).1 ∧ (st.2.mem p).Connected = false) ∧
      st.1.nextsession = 0 ∧
      st.1.sessions = (tryConnectNode env { srv with sessions := [] } w).1.1.sessions ∧
      st.1.needReconnect = (tryConnectNode env { srv with sessions := [] } w).1.1.needReconnect ∧
      err = (tryConnectNode env { srv with sessions := [] } w).2 ∧
      (∀ p ∈ st.1.sessions, p ∉ srv.sessions ∧
        st.2.mem p = (tryConnectNode env { srv with sessions := [] } w).1.2.mem p) := by
  obtain ⟨c1, c2, c3, c4⟩ := closeAll_spec srv.sessions w hok
  have hmemI := tryConnectNode.loop_indep_mem env srv.conf.Node.Connection
    srv.conf.Node.Poolsize.toNat (closeAll srv.sessions w).1 w [] c2 c3
  have hfresh := tryConnectNode.loop_ok env srv.conf.Node.Connection
    srv.conf.Node.Poolsize.toNat (closeAll srv.sessions w).1 [] (by simp)
  have hloop := tryConnectNode.loop_indep env srv.conf.Node.Connection
    srv.conf.Node.Poolsize.toNat (closeAll srv.sessions w).1 w [] c2 c3
  obtain ⟨l1, l2, l3, l4⟩ := tryConnectNode.loop_spec env srv.conf.Node.Connection
    srv.conf.Node.Poolsize.toNat (closeAll srv.sessions w).1 []
  have hr : reconnectNode env srv w =
      (((tryConnectNode env { srv with sessions := [], nextsession := 0 }
          (closeAll srv.sessions w).1).1),
        Outcome.ret (tryConnectNode env { srv with sessions := [], nextsession := 0 }
          (closeAll srv.sessions w).1).2) := by
    unfold reconnectNode
    rw [show closeAll srv.sessions w = ((closeAll srv.sessions w).1, (closeAll srv.sessions w).2)
      from rfl, c1]
  refine ⟨_, _, hr, ?_, ?_, ?_, ?_, ?_, ?_⟩
  · intro p hp
    have hm : (tryConnectNode env { srv with sessions := [], nextsession := 0 }
        (closeAll srv.sessions w).1).1.2.mem p = ((w.mem p).Close).1 := by
      rw [tryConnectNode_eq]
      simp only
      rw [l2 p (by rw [c2]; exact halloc p hp), c4 p]
      simp [hp]
    exact ⟨hm, by rw [hm]; exact Session.Close_Connected _⟩
  · rw [tryConnectNode_eq]
  · rw [tryConnectNode_eq, tryConnectNode_eq]
    simp only
    rw [hloop]
  · rw [tryConnectNode_eq, tryConnectNode_eq]
    simp only
    rw [hloop]
  · rw [tryConnectNode_eq, tryConnectNode_eq]
    simp only
    rw [hloop]
  · intro p hp
    rw [tryConnectNode_eq] at hp
    simp only at hp
    have hge : (closeAll srv.sessions w).1.brk ≤ p := by
      rcases l3 p hp with h1 | h1
      · simp at h1
      · exact h1
    refine ⟨?_, ?_⟩
    · intro hp2
      have := halloc p hp2
      rw [c2] at hge
      omega
    · rw [tryConnectNode_eq, tryConnectNode_eq]
      exact hmemI p hge (hfresh p hp).1

/-- An instance of C8 on a pool one of whose transports fails to close. -/
theorem reconnectNode_spec_witness :
    ∃ st err, reconnectNode scenarioEnv mixedPool.1 mixedPool.2 = (st, Outcome.ret err) ∧
      (∀ p ∈ mixedPool.1.sessions,
        st.2.mem p = ((mixedPool.2.mem p).Close).1 ∧ (st.2.mem p).Connected = false) ∧
      st.1.nextsession = 0 ∧
      st.1.sessions = (tryConnectNode scenarioEnv { mixedPool.1 with sessions := [] }
        mixedPool.2).1.1.sessions ∧
      st.1.needReconnect = (tryConnectNode scenarioEnv { mixedPool.1 with sessions := [] }
        mixedPool.2).1.1.needReconnect ∧
      err = (tryConnectNode scenarioEnv { mixedPool.1 with sessions := [] } mixedPool.2).2 ∧
      (∀ p ∈ st.1.sessions, p ∉ mixedPool.1.sessions ∧
        st.2.mem p = (tryConnectNode scenarioEnv { mixedPool.1 with sessions := [] }
          mixedPool.2).1.2.mem p) :=
  reconnectNode_spec scenarioEnv mixedPool.1 mixedPool.2 (by decide) (by decide)

/-! ## Index used by `getSession` -/

theorem wrapInt32_of_range (x : Int) (h1 : -2147483648 ≤ x) (h2 : x < 2147483648) :
    wrapInt32 x = x := by
  unfold wrapInt32
  omega

theorem wrapInt32_range (x : Int) : -2147483648 ≤ wrapInt32 x ∧ wrapInt32 x < 2147483648 := by
  unfold wrapInt32
  omega

theorem getSession_fst (srv : RestServer) :
    (getSession srv).1 = { srv with nextsession := wrapInt32 (srv.nextsession + 1) } := by
  unfold getSession getSession.index
  simp only
  by_cases hz : wrapInt32 srv.conf.Node.Poolsize = 0
  · simp [hz]
  · simp only [hz, if_false]
    split_ifs
    · split <;> rfl
    · rfl

/-- While the counter stays below 2^31, `n` calls of `getSession` add `n` to
it and leave the rest of the server value alone. -/
theorem getSession_iterate (srv : RestServer) (n : Nat) (hc : 0 ≤ srv.nextsession)
    (hn : srv.nextsession + n < 2147483648) :
    Nat.iterate (fun s => (getSession s).1) n srv =
      { srv with nextsession := srv.nextsession + n } := by
  induction n with
  | zero => simp
  | succ n ih =>
    rw [Function.iterate_succ_apply', ih (by push_cast at hn; omega), getSession_fst]
    simp only
    rw [wrapInt32_of_range _ (by omega) (by push_cast at hn; omega)]
    push_cast
    rw [Int.add_assoc]

/-- The remainder Go computes for a non-negative `next` and a non-zero `int32`
divisor is non-negative, and below the divisor when the divisor is positive,
below 2^31 in any case. -/
theorem tmod_int32_bounds (next size : Int) (h0 : 0 ≤ next) (hs : size ≠ 0)
    (h1 : -2147483648 ≤ size) (h2 : size < 2147483648) :
    0 ≤ Int.tmod next size ∧ Int.tmod next size < 2147483648 ∧
    (0 < size → Int.tmod next size < size) := by
  refine ⟨Int.tmod_nonneg _ h0, ?_, fun h => Int.tmod_lt_of_pos _ h⟩
  rcases lt_or_gt_of_ne hs with h | h
  · have := Int.tmod_lt_of_pos next (show 0 < -size by omega)
    rw [Int.tmod_neg] at this
    omega
  · have := Int.tmod_lt_of_pos next h
    omega

/-- C3, as amended: after a `tryConnectNode` that leaves `needReconnect` false
and the session sequence non-empty, and after `n` calls of `getSession` with
a counter that started non-negative and is still below 2^31 - 1, the index
the next `getSession` uses, if it computes one, satisfies
`0 <= index < len(sessions)`; and for a configured pool size below 2^31 it
does compute one and returns the session at that index. -/
theorem getSession_index_in_range (env : Env) (srv : RestServer) (w : World) (n : Nat)
    (hflag : (tryConnectNode env srv w).1.1.needReconnect = false)
    (hne : (tryConnectNode env srv w).1.1.sessions ≠ [])
    (hc : 0 ≤ srv.nextsession) (hn : srv.nextsession + n < 2147483647) :
    (∀ i, (getSession.index
        (Nat.iterate (fun s => (getSession s).1) n (tryConnectNode env srv w).1.1)).2
          = Outcome.ret i →
      0 ≤ i ∧ i < ((Nat.iterate (fun s => (getSession s).1) n
        (tryConnectNode env srv w).1.1).sessions.length : Int)) ∧
    (srv.conf.Node.Poolsize < 2147483648 →
      ∃ i p, (getSession.index
          (Nat.iterate (fun s => (getSession s).1) n (tryConnectNode env srv w).1.1)).2
            = Outcome.ret i ∧
        (Nat.iterate (fun s => (getSession s).1) n
          (tryConnectNode env srv w).1.1).sessions[i.toNat]? = some p ∧
        (getSession (Nat.iterate (fun s => (getSession s).1) n
          (tryConnectNode env srv w).1.1)).2 = Outcome.ret p) := by
  obtain ⟨-, -, -, l4⟩ := tryConnectNode.loop_spec env srv.conf.Node.Connection
    srv.conf.Node.Poolsize.toNat w []
  rw [tryConnectNode_eq] at hflag hne ⊢
  simp only at hflag hne ⊢
  generalize (tryConnectNode.loop env srv.conf.Node.Connection
    srv.conf.Node.Poolsize.toNat w []).2.1 = L at hflag hne l4 ⊢
  have hlen : 1 ≤ L.length := by
    cases L with
    | nil => exact absurd rfl hne
    | cons a t => simp
  simp only [decide_eq_false_iff_not, not_lt, List.length_nil, zero_add] at hflag l4
  have hP : 1 ≤ srv.conf.Node.Poolsize := by omega
  have hLP : (L.length : Int) = srv.conf.Node.Poolsize := by omega
  have hit := getSession_iterate
    { srv with sessions := L,
               needReconnect := decide ((L.length : Int) < srv.conf.Node.Poolsize) }
    n hc (by simp only; omega)
  rw [hit]
  simp only
  have hnext : wrapInt32 (srv.nextsession + n + 1) = srv.nextsession + n + 1 :=
    wrapInt32_of_range _ (by omega) (by omega)
  obtain ⟨r1, r2⟩ := wrapInt32_range srv.conf.Node.Poolsize
  constructor
  · intro i hi
    simp only [getSession.index, hnext] at hi
    split_ifs at hi with hz
    simp only [Outcome.ret.injEq] at hi
    obtain ⟨t1, t2, t3⟩ := tmod_int32_bounds (srv.nextsession + n + 1)
      (wrapInt32 srv.conf.Node.Poolsize) (by omega) hz r1 r2
    rw [hi] at t1 t2 t3
    refine ⟨t1, ?_⟩
    by_cases hbig : srv.conf.Node.Poolsize < 2147483648
    · rw [wrapInt32_of_range _ (by omega) hbig] at t3
      have := t3 (by omega)
      omega
    · omega
  · intro hbig
    have hw : wrapInt32 srv.conf.Node.Poolsize = srv.conf.Node.Poolsize :=
      wrapInt32_of_range _ (by omega) hbig
    obtain ⟨t1, t2, t3⟩ := tmod_int32_bounds (srv.nextsession + n + 1)
      srv.conf.Node.Poolsize (by omega) (by omega) (by omega) hbig
    have t4 := t3 (by omega)
    have hz : ¬ srv.conf.Node.Poolsize = 0 := by omega
    have hidx : (Int.tmod (srv.nextsession + n + 1) srv.conf.Node.Poolsize).toNat < L.length := by
      omega
    refine ⟨Int.tmod (srv.nextsession + n + 1) srv.conf.Node.Poolsize,
      L[(Int.tmod (srv.nextsession + n + 1) srv.conf.Node.Poolsize).toNat], ?_, ?_, ?_⟩
    · simp [getSession.index, hnext, hw, hz]
    · exact List.getElem?_eq_getElem hidx
    · simp only [getSession, getSession.index, hnext, hw, hz, if_false, t1, if_true]
      rw [List.getElem?_eq_getElem hidx]

/-- An instance of C3 as amended: a pool of two sessions that both connected,
and the sixth call of `getSession`. -/
theorem getSession_index_in_range_witness :
    (∀ i, (getSession.index
        (Nat.iterate (fun s => (getSession s).1) 5 (tryConnectNode scenarioEnv
          (freshServer "local:///tmp/nano" 2) (emptyWorld (flakyDialer 2))).1.1)).2
          = Outcome.ret i →
      0 ≤ i ∧ i < ((Nat.iterate (fun s => (getSession s).1) 5
        (tryConnectNode scenarioEnv (freshServer "local:///tmp/nano" 2)
          (emptyWorld (flakyDialer 2))).1.1).sessions.length : Int)) ∧
    ((freshServer "local:///tmp/nano" 2).conf.Node.Poolsize < 2147483648 →
      ∃ i p, (getSession.index
          (Nat.iterate (fun s => (getSession s).1) 5 (tryConnectNode scenarioEnv
            (freshServer "local:///tmp/nano" 2) (emptyWorld (flakyDialer 2))).1.1)).2
            = Outcome.ret i ∧
        (Nat.iterate (fun s => (getSession s).1) 5
          (tryConnectNode scenarioEnv (freshServer "local:///tmp/nano" 2)
            (emptyWorld (flakyDialer 2))).1.1).sessions[i.toNat]? = some p ∧
        (getSession (Nat.iterate (fun s => (getSession s).1) 5
          (tryConnectNode scenarioEnv (freshServer "local:///tmp/nano" 2)
            (emptyWorld (flakyDialer 2))).1.1)).2 = Outcome.ret p) :=
  getSession_index_in_range scenarioEnv (freshServer "local:///tmp/nano" 2)
    (emptyWorld (flakyDialer 2)) 5 (by decide) (by decide) (by decide) (by decide)

/-! ## Round robin -/

theorem residueCount_add (k j a n m : Nat) :
    residueCount k j a (n + m) = residueCount k j a n + residueCount k j (a + n) m := by
  simp only [residueCount, List.range_add, List.map_append, List.count_append, List.map_map]
  congr 2
  apply List.map_congr_left
  intro t _
  simp [Function.comp, Nat.add_assoc]

theorem residueCount_one_shift (k j a : Nat) :
    residueCount k j (a + k) 1 = residueCount k j a 1 := by
  simp [residueCount, List.range_succ_eq_map]

theorem residueCount_window (k j a : Nat) :
    residueCount k j (a + 1) k = residueCount k j a k := by
  have h1 := residueCount_add k j a 1 k
  have h2 := residueCount_add k j a k 1
  have h3 := residueCount_one_shift k j a
  rw [Nat.add_comm 1 k] at h1
  omega

theorem residueCount_full (k j a : Nat) (hj : j < k) : residueCount k j a k = 1 := by
  induction a with
  | zero =>
    have : (List.range k).map (fun t => (0 + t) % k) = List.range k := by
      conv_rhs => rw [← List.map_id (List.range k)]
      apply List.map_congr_left
      intro t ht
      simp only [List.mem_range] at ht
      simp [Nat.mod_eq_of_lt ht]
    simp only [residueCount, this]
    exact List.count_eq_one_of_mem (List.nodup_range k) (List.mem_range.mpr hj)
  | succ a ih => rw [residueCount_window, ih]

theorem residueCount_short (k j a n : Nat) (hj : j < k) (hn : n ≤ k) :
    residueCount k j a n ≤ 1 := by
  have h1 := residueCount_add k j a n (k - n)
  rw [Nat.add_sub_cancel' hn, residueCount_full k j a hj] at h1
  omega

/-- Among `n` consecutive numbers every residue modulo `k` occurs `n / k`
times, rounded down or up. -/
theorem residueCount_bounds (k j : Nat) (hj : j < k) (n : Nat) :
    ∀ a, n / k ≤ residueCount k j a n ∧ residueCount k j a n ≤ (n + k - 1) / k := by
  induction n using Nat.strong_induction_on with
  | _ n ih =>
    intro a
    have hk : 0 < k := by omega
    by_cases hn : n < k
    · rw [Nat.div_eq_of_lt hn]
      refine ⟨Nat.zero_le _, ?_⟩
      by_cases h0 : n = 0
      · subst h0
        simp [residueCount]
      · have h1 : (n + k - 1) / k = 1 := by
          apply Nat.div_eq_of_lt_le <;> omega
        rw [h1]
        exact residueCount_short k j a n hj (by omega)
    · have hsplit : n = k + (n - k) := by omega
      obtain ⟨i1, i2⟩ := ih (n - k) (by omega) (a + k)
      have hadd := residueCount_add k j a k (n - k)
      rw [← hsplit, residueCount_full k j a hj] at hadd
      have d1 : n / k = (n - k) / k + 1 := by
        conv_lhs => rw [hsplit]
        rw [Nat.add_div_left _ hk]
      have d2 : (n + k - 1) / k = (n - k + k - 1) / k + 1 := by
        have : n + k - 1 = k + (n - k + k - 1) := by omega
        rw [this, Nat.add_div_left _ hk]
      omega

theorem indexTrace_eq (n : Nat) (srv : RestServer) (c k : Nat)
    (hc : srv.nextsession = c) (hk : srv.conf.Node.Poolsize = k) (hk1 : 1 ≤ k)
    (hk2 : k < 2147483648) (hn : c + n < 2147483648) :
    indexTrace n srv =
      (List.range n).map (fun t => Outcome.ret (((c + 1 + t) % k : Nat) : Int)) := by
  induction n generalizing srv c with
  | zero => rfl
  | succ n ih =>
    have hnext : wrapInt32 (srv.nextsession + 1) = ((c + 1 : Nat) : Int) := by
      rw [hc, wrapInt32_of_range _ (by omega) (by omega)]
      push_cast
      rfl
    have hsize : wrapInt32 srv.conf.Node.Poolsize = (k : Int) := by
      rw [hk, wrapInt32_of_range _ (by omega) (by omega)]
    have hz : ¬ ((k : Int) = 0) := by omega
    have hidx : (getSession.index srv).2 = Outcome.ret (((c + 1 + 0) % k : Nat) : Int) := by
      simp only [getSession.index, hnext, hsize, hz, if_false, Nat.add_zero]
      rw [Int.ofNat_tmod]
    have hrec := ih (getSession srv).1 (c + 1) (by rw [getSession_fst]; exact hnext)
      (by rw [getSession_fst]; exact hk) (by omega)
    rw [indexTrace, hidx, hrec, List.range_succ_eq_map, List.map_cons, List.map_map]
    congr 1
    apply List.map_congr_left
    intro t _
    simp only [Function.comp, Nat.succ_eq_add_one]
    congr 3
    omega

/-- Round-robin fairness away from the overflow of the counter: with a pool
size `k` between 1 and 2^31 - 1, a counter `c >= 0` and `n` calls that keep the
counter below 2^31, every index `j` in `0 .. k-1` is computed `n / k` times,
rounded down or up. -/
theorem getSession_fair (n : Nat) (srv : RestServer) (c k j : Nat)
    (hc : srv.nextsession = c) (hk : srv.conf.Node.Poolsize = k) (hk1 : 1 ≤ k)
    (hk2 : k < 2147483648) (hn : c + n < 2147483648) (hj : j < k) :
    n / k ≤ (indexTrace n srv).count (Outcome.ret (j : Int)) ∧
    (indexTrace n srv).count (Outcome.ret (j : Int)) ≤ (n + k - 1) / k := by
  rw [indexTrace_eq n srv c k hc hk hk1 hk2 hn]
  have hinj : Function.Injective (fun m : Nat => (Outcome.ret (m : Int) : Outcome Int)) := by
    intro x y hxy
    simp only [Outcome.ret.injEq, Nat.cast_inj] at hxy
    exact hxy
  have hmap : (List.range n).map (fun t => Outcome.ret (((c + 1 + t) % k : Nat) : Int)) =
      ((List.range n).map (fun t => (c + 1 + t) % k)).map
        (fun m : Nat => (Outcome.ret (m : Int) : Outcome Int)) := by
    rw [List.map_map]
    rfl
  rw [hmap, List.count_map_of_injective _ _ hinj]
  exact residueCount_bounds k j hj n (c + 1)

/-! ## What the handler writes -/

theorem handler.onFailure_resp (env : Env) (st : CallChain × HandlerVars) :
    (handler.onFailure env st).1.2.resp = st.2.resp := by
  unfold handler.onFailure
  split
  · rfl
  · split_ifs
    · split <;> rfl
    · rfl

/-- The chain of `handler` when the pool needs no reconnect. -/
theorem handler_eq_chain (env : Env) (srv : RestServer) (w : World) (req : HttpRequest)
    (hpost : req.Method = "POST") (hflag : srv.needReconnect = false) :
    handler env srv w req =
      (((CallChain.run [handler.readBody, handler.request, handler.respond]
          (handler.onFailure env)
          ({ Err := none },
           { server := srv, world := w, resp := [], req := req,
             responseBytes := none, bodyString := [] })).1.2.server,
        (CallChain.run [handler.readBody, handler.request, handler.respond]
          (handler.onFailure env)
          ({ Err := none },
           { server := srv, world := w, resp := [], req := req,
             responseBytes := none, bodyString := [] })).1.2.world,
        (CallChain.run [handler.readBody, handler.request, handler.respond]
          (handler.onFailure env)
          ({ Err := none },
           { server := srv, world := w, resp := [], req := req,
             responseBytes := none, bodyString := [] })).1.2.resp),
       (CallChain.run [handler.readBody, handler.request, handler.respond]
          (handler.onFailure env)
          ({ Err := none },
           { server := srv, world := w, resp := [], req := req,
             responseBytes := none, bodyString := [] })).2) := by
  simp only [handler, hpost, hflag, if_true, Bool.false_eq_true, if_false]

/-- On success the handler writes the payload `Request` returned, and nothing
else. -/
theorem handler_success (env : Env) (srv : RestServer) (w : World) (body : List Byte)
    (p : Nat) (rb : Option (List Byte)) (hflag : srv.needReconnect = false)
    (hsel : (getSession srv).2 = Outcome.ret p)
    (hreq : (w.Request p body).2 = Outcome.ret (rb, none)) :
    (handler env srv w ⟨"POST", Except.ok body⟩).2 = none ∧
    (handler env srv w ⟨"POST", Except.ok body⟩).1.2.2 = rb.getD [] := by
  rw [handler_eq_chain env srv w _ rfl hflag]
  have hg : getSession srv = ((getSession srv).1, Outcome.ret p) := by rw [← hsel]
  have hr : w.Request p body = ((w.Request p body).1, Outcome.ret (rb, none)) := by rw [← hreq]
  simp only [CallChain.run, List.foldr, Exec.andThen, CallChain.Do, CallChain.Failure,
    handler.readBody, handler.request, handler.respond, if_true]
  rw [hg]
  simp only
  rw [hr]
  simp [HandlerVars.Write]

/-- When the request on the selected session fails, the handler writes
nothing to the response. -/
theorem handler_request_failure (env : Env) (srv : RestServer) (w : World) (body : List Byte)
    (p : Nat) (rb : Option (List Byte)) (e : Error) (hflag : srv.needReconnect = false)
    (hsel : (getSession srv).2 = Outcome.ret p)
    (hreq : (w.Request p body).2 = Outcome.ret (rb, some e)) :
    (handler env srv w ⟨"POST", Except.ok body⟩).1.2.2 = [] := by
  rw [handler_eq_chain env srv w _ rfl hflag]
  have hg : getSession srv = ((getSession srv).1, Outcome.ret p) := by rw [← hsel]
  have hr : w.Request p body = ((w.Request p body).1, Outcome.ret (rb, some e)) := by
    rw [← hreq]
  simp only [CallChain.run, List.foldr, Exec.andThen, CallChain.Do, CallChain.Failure,
    handler.readBody, handler.request, handler.respond, if_true]
  rw [hg]
  simp only
  rw [hr]
  simp only [reduceCtorEq, if_false, ne_eq, not_false_eq_true, if_true]
  rw [handler.onFailure_resp]

/-- When reading the body fails, the handler writes nothing to the response. -/
theorem handler_body_failure (env : Env) (srv : RestServer) (w : World) (msg : String)
    (hflag : srv.needReconnect = false) :
    (handler env srv w ⟨"POST", Except.error msg⟩).1.2.2 = [] := by
  rw [handler_eq_chain env srv w _ rfl hflag]
  simp only [CallChain.run, List.foldr, Exec.andThen, CallChain.Do, CallChain.Failure,
    handler.readBody, if_true, reduceCtorEq, if_false, ne_eq, not_false_eq_true]
  rw [handler.onFailure_resp]

end NanoIPC
